import Mathlib

/-!
# Tic-tac-toe room server (`main.go`)

A shallow embedding of the request handlers of `main.go` and of the helpers
`generateRoomID`, `createEmptyBoard`, `checkWin` and `checkDraw`.

Conventions of the embedding.

* A Go `map[string]T` is an association list with distinct keys
  (`AList`); `len m` is the number of entries, `m[k]` on an absent key of a
  `map[string]string` is the zero value `""`.
* A Go `[][]string` is a `List (List String)`.  Reading or writing outside
  the bounds of a slice is a run-time panic, written `none`.
* The pair `(response, error)` that a handler builds at a `return` statement is
  written `Reply.ok response` or `Reply.error message`.
* `generateRoomID` draws random characters; the identifier it produced is an
  argument of `CreateRoom`.
* `for player := range room.Players` visits the keys in an order that Go
  leaves unspecified; the order of the visit is an argument of `PlaceMove`.
* A `sync.Mutex` is locked or unlocked (`Locks`).  `Lock` on a locked mutex does
  not return while the mutex stays locked, and `Unlock` on an unlocked mutex is
  the fatal error "sync: unlock of unlocked mutex" (`LockFault`).
* `PlaceMoveBody` is the part of `PlaceMove` that reads and writes the rooms,
  lines 90-93 and 99-135.  `PlaceMove` is the whole handler: the mutex calls of
  lines 89, 92 and 95-97 around `PlaceMoveBody`, with an `Outcome` that says
  whether the call returned its reply.  The Go mutex is not tied to the
  goroutine that locked it, so the second deferred `Unlock` of `PlaceMove`
  succeeds exactly when another goroutine has locked `s.Mutex` in the
  meantime; whether that happened is the argument `relocked` (false when the
  call runs alone).
* `CreateRoom`, `JoinRoom` and `StreamGameStateStep` lock `s.Mutex` once and
  unlock it once (`CreateRoomLocks`, `JoinRoomLocks`, `StreamGameStateLocks`);
  their definitions give what they do to the rooms and the reply they build.
* `runCalls` and `Reachable` follow the rooms through a sequence of calls,
  taking every call to run its reads and writes to the end.  The mutex calls
  can only stop a call, so the reachable states of the program are among the
  states of `Reachable`.
-/

namespace TicTacToe

/-! ## Data model -/

/-- A Go `map[string]T`. -/
abbrev StrMap (β : Type) := AList (fun _ : String => β)

/-- The board, a Go `[][]string`. -/
abbrev Board := List (List String)

/-- The `Room` struct (the `Mutex` field carries no game data). -/
structure Room where
  ID : String
  Players : StrMap String
  CurrentTurn : String
  Board : Board
  IsGameOver : Bool
  Winner : String
  deriving DecidableEq

/-- The `TicTacToeServer` struct. -/
structure TicTacToeServer where
  Rooms : StrMap Room
  deriving DecidableEq

/-- The pair `(response, error)` a handler returns. -/
inductive Reply (α : Type) where
  | ok (resp : α)
  | error (msg : String)
  deriving DecidableEq

/-- The fields of `pb.CreateRoomRequest` read by `CreateRoom`. -/
structure CreateRoomRequest where
  PlayerName : String
  deriving DecidableEq

/-- The fields of `pb.JoinRoomRequest` read by `JoinRoom`. -/
structure JoinRoomRequest where
  RoomId : String
  PlayerName : String
  deriving DecidableEq

/-- The fields of `pb.PlaceMoveRequest` read by `PlaceMove`. -/
structure PlaceMoveRequest where
  RoomId : String
  PlayerName : String
  Row : Int
  Col : Int
  deriving DecidableEq

/-- The `pb.GameState` message. -/
structure GameState where
  Board : Board
  IsGameOver : Bool
  Winner : String
  deriving DecidableEq

/-- The server built in `main`: `TicTacToeServer{Rooms: make(map[string]*Room)}`. -/
def newServer : TicTacToeServer := ⟨∅⟩

/-! ## Slice access -/

/-- The read `board[i][j]`; `none` is the index-out-of-range panic. -/
def readCell (board : Board) (i j : Nat) : Option String :=
  match board[i]? with
  | none => none
  | some row => row[j]?

/-- The write `board[i][j] = v`; `none` is the index-out-of-range panic. -/
def writeCell (board : Board) (i j : Nat) (v : String) : Option Board :=
  match board[i]? with
  | none => none
  | some row => if j < row.length then some (board.set i (row.set j v)) else none

/-- The read `board[row][col]` with signed indices, as in `PlaceMove`. -/
def cellAt (board : Board) (row col : Int) : Option String :=
  if row < 0 ∨ col < 0 then none else readCell board row.toNat col.toNat

/-- The write `board[row][col] = v` with signed indices, as in `PlaceMove`. -/
def setCellAt (board : Board) (row col : Int) (v : String) : Option Board :=
  if row < 0 ∨ col < 0 then none else writeCell board row.toNat col.toNat v

/-- Go `a && b`: the right operand is evaluated only when the left one is true. -/
def andThen (a b : Option Bool) : Option Bool :=
  match a with
  | none => none
  | some true => b
  | some false => some false

/-- Go `a || b`: the right operand is evaluated only when the left one is false. -/
def orElse (a b : Option Bool) : Option Bool :=
  match a with
  | none => none
  | some true => some true
  | some false => b

/-- The read `m[k]` of a `map[string]string`: the zero value on an absent key. -/
def mapGet (m : StrMap String) (k : String) : String :=
  (m.lookup k).getD ""

/-- The comparison `board[i][j] == symbol`. -/
def cellIs (board : Board) (symbol : String) (i j : Nat) : Option Bool :=
  (readCell board i j).map fun c => decide (c = symbol)

/-! ## Helpers of `main.go` -/

/-- The function `createEmptyBoard`. -/
def createEmptyBoard : Board :=
  [["", "", ""],
   ["", "", ""],
   ["", "", ""]]

/-- The loop of `checkWin` from index `i` with `n` iterations left, followed by
the diagonal test. -/
def checkWinLoop (board : Board) (symbol : String) (i : Nat) : Nat → Option Bool
  | 0 =>
    orElse
      (andThen (andThen (cellIs board symbol 0 0) (cellIs board symbol 1 1))
        (cellIs board symbol 2 2))
      (andThen (andThen (cellIs board symbol 0 2) (cellIs board symbol 1 1))
        (cellIs board symbol 2 0))
  | n + 1 =>
    match orElse
        (andThen (andThen (cellIs board symbol i 0) (cellIs board symbol i 1))
          (cellIs board symbol i 2))
        (andThen (andThen (cellIs board symbol 0 i) (cellIs board symbol 1 i))
          (cellIs board symbol 2 i)) with
    | none => none
    | some true => some true
    | some false => checkWinLoop board symbol (i + 1) n

/-- The function `checkWin`: `for i := 0; i < 3; i++`, then the diagonals. -/
def checkWin (board : Board) (symbol : String) : Option Bool :=
  checkWinLoop board symbol 0 3

/-- The inner loop of `checkDraw` over `j`, with `n` iterations left: `some false`
when an empty cell made the function return false, `some true` when the row
was scanned to its end. -/
def checkDrawRow (board : Board) (i j : Nat) : Nat → Option Bool
  | 0 => some true
  | n + 1 =>
    match readCell board i j with
    | none => none
    | some c => if c = "" then some false else checkDrawRow board i (j + 1) n

/-- The outer loop of `checkDraw` over `i`, with `n` iterations left. -/
def checkDrawLoop (board : Board) (i : Nat) : Nat → Option Bool
  | 0 => some true
  | n + 1 =>
    match checkDrawRow board i 0 3 with
    | none => none
    | some false => some false
    | some true => checkDrawLoop board (i + 1) n

/-- The function `checkDraw`. -/
def checkDraw (board : Board) : Option Bool :=
  checkDrawLoop board 0 3

/-! ## Handlers -/

/-- The handler `CreateRoom`; `roomID` is the value of `generateRoomID()`. -/
def CreateRoom (s : TicTacToeServer) (req : CreateRoomRequest) (roomID : String) :
    TicTacToeServer × Reply String :=
  let room : Room :=
    { ID := roomID
      Players := (∅ : StrMap String).insert req.PlayerName "X"
      CurrentTurn := req.PlayerName
      Board := createEmptyBoard
      IsGameOver := false
      Winner := "" }
  ({ Rooms := s.Rooms.insert roomID room }, Reply.ok roomID)

/-- The handler `JoinRoom`. -/
def JoinRoom (s : TicTacToeServer) (req : JoinRoomRequest) :
    TicTacToeServer × Reply String :=
  match s.Rooms.lookup req.RoomId with
  | none => (s, Reply.error "room not found")
  | some room =>
    if room.Players.keys.length ≥ 2 then (s, Reply.error "room is full")
    else
      ({ Rooms := s.Rooms.insert req.RoomId
            { room with Players := room.Players.insert req.PlayerName "O" } },
        Reply.ok "Successfully joined the room!")

/-- The loop `for player := range room.Players` of `PlaceMove`, visiting the keys
in the order `order`: the first key different from `mover` becomes the turn. -/
def switchTurn (mover : String) (cur : String) : List String → String
  | [] => cur
  | player :: rest => if player ≠ mover then player else switchTurn mover cur rest

/-- Lines 90-93 and 99-135 of the handler `PlaceMove`: the lookup, the two tests,
the writes to the room and the reply built at the `return` statement that is
reached; the mutex calls of lines 89, 92 and 95-97 are in `PlaceMove`.
`order` is the order in which the `range` loop visits the keys of
`room.Players`; `none` is the index-out-of-range panic. -/
def PlaceMoveBody (s : TicTacToeServer) (req : PlaceMoveRequest) (order : List String) :
    Option (TicTacToeServer × Reply GameState) :=
  match s.Rooms.lookup req.RoomId with
  | none => some (s, Reply.error "room not found")
  | some room =>
    match cellAt room.Board req.Row req.Col with
    | none => none
    | some c =>
      if c ≠ "" then some (s, Reply.error "cell already occupied")
      else if room.IsGameOver then some (s, Reply.error "game is already over")
      else
        let symbol := mapGet room.Players req.PlayerName
        match setCellAt room.Board req.Row req.Col symbol with
        | none => none
        | some board =>
          match checkWin board symbol with
          | none => none
          | some win =>
            let room1 : Room :=
              if win then
                { room with Board := board, IsGameOver := true, Winner := req.PlayerName }
              else { room with Board := board }
            match andThen (some (!room1.IsGameOver)) (checkDraw board) with
            | none => none
            | some draw =>
              let room2 : Room :=
                if draw then { room1 with IsGameOver := true, Winner := "" } else room1
              let room3 : Room :=
                { room2 with
                  CurrentTurn := switchTurn req.PlayerName room2.CurrentTurn order }
              some ({ Rooms := s.Rooms.insert req.RoomId room3 },
                Reply.ok ⟨room3.Board, room3.IsGameOver, room3.Winner⟩)

/-- The constant `charset` of `generateRoomID`, as the list of its characters. -/
def charset : List Char :=
  "abcdefghijklmnopqrstuvwxyzABCDEFGHIJKLMNOPQRSTUVWXYZ0123456789".toList

/-- The function `generateRoomID`: eight characters of `charset`; `draw i` is the
value of `rand.Intn(len(charset))` in iteration `i` of the loop. -/
def generateRoomID (draw : Fin 8 → Fin 62) : String :=
  String.mk ((List.finRange 8).map fun i =>
    charset.get ⟨(draw i).val, lt_of_lt_of_eq (draw i).isLt (by decide)⟩)

/-- One iteration of the loop of `StreamGameState`: the lookup, and the message
handed to `stream.Send`; `Reply.error` is the error that ends the stream.  The
first component is the server as the iteration leaves it. -/
def StreamGameStateStep (s : TicTacToeServer) (roomID : String) :
    TicTacToeServer × Reply GameState :=
  match s.Rooms.lookup roomID with
  | none => (s, Reply.error "room not found")
  | some room => (s, Reply.ok ⟨room.Board, room.IsGameOver, room.Winner⟩)

/-! ## Mutexes -/

/-- A mutex of the program: `s.Mutex`, or the `Mutex` field of the room stored
under an identifier. -/
inductive MutexId where
  | server
  | room (roomId : String)
  deriving DecidableEq

/-- A call of `Lock` or of `Unlock` on a mutex. -/
inductive LockOp where
  | lock (m : MutexId)
  | unlock (m : MutexId)
  deriving DecidableEq

/-- The mutexes that are locked. -/
structure Locks where
  held : List MutexId
  deriving DecidableEq

/-- How a call of `Lock` or `Unlock` fails to return when the handler runs alone:
`Lock` on a locked mutex waits for ever, `Unlock` on an unlocked mutex is the
fatal run-time error "sync: unlock of unlocked mutex". -/
inductive LockFault where
  | blocked (m : MutexId)
  | unlockOfUnlocked (m : MutexId)
  deriving DecidableEq

/-- The outcome of a sequence of mutex calls. -/
inductive LockResult where
  | returned (l : Locks)
  | fault (f : LockFault) (l : Locks)
  deriving DecidableEq

/-- No mutex is locked. -/
def Locks.free : Locks := ⟨[]⟩

/-- The mutex calls of the list, in order, from the state `l`; the run stops at
the first call that does not return. -/
def Locks.exec (l : Locks) : List LockOp → LockResult
  | [] => LockResult.returned l
  | LockOp.lock m :: ops =>
    if m ∈ l.held then LockResult.fault (LockFault.blocked m) l
    else Locks.exec ⟨m :: l.held⟩ ops
  | LockOp.unlock m :: ops =>
    if m ∈ l.held then Locks.exec ⟨l.held.erase m⟩ ops
    else LockResult.fault (LockFault.unlockOfUnlocked m) l

/-- The mutex calls of `CreateRoom`, in the order in which they run. -/
def CreateRoomLocks : List LockOp :=
  [LockOp.lock MutexId.server, LockOp.unlock MutexId.server]

/-- The mutex calls of `JoinRoom`, in the order in which they run: the deferred
`Unlock` runs when the handler returns. -/
def JoinRoomLocks : List LockOp :=
  [LockOp.lock MutexId.server, LockOp.unlock MutexId.server]

/-- The mutex calls of one iteration of `StreamGameState`. -/
def StreamGameStateLocks : List LockOp :=
  [LockOp.lock MutexId.server, LockOp.unlock MutexId.server]

/-- The mutex calls of `PlaceMove`, in the order in which they run.  When the room
is missing: `s.Mutex.Lock()`, `s.Mutex.Unlock()`.  When it exists:
`s.Mutex.Lock()`, `room.Mutex.Lock()`, and at the return the two deferred calls,
both of them `s.Mutex.Unlock()`. -/
def PlaceMoveLocks (s : TicTacToeServer) (req : PlaceMoveRequest) : List LockOp :=
  match s.Rooms.lookup req.RoomId with
  | none => [LockOp.lock MutexId.server, LockOp.unlock MutexId.server]
  | some _ =>
    [LockOp.lock MutexId.server, LockOp.lock (MutexId.room req.RoomId),
     LockOp.unlock MutexId.server, LockOp.unlock MutexId.server]

/-- The two deferred calls of `PlaceMove` as they run at its return, both of them
`s.Mutex.Unlock()`.  When `relocked` is true another goroutine has locked
`s.Mutex` between the two: that `Lock` is the call in the middle. -/
def PlaceMoveDeferred (relocked : Bool) : List LockOp :=
  if relocked then
    [LockOp.unlock MutexId.server, LockOp.lock MutexId.server,
     LockOp.unlock MutexId.server]
  else [LockOp.unlock MutexId.server, LockOp.unlock MutexId.server]

/-- How a call of a handler ends: it returns its reply; or a call of `Lock` or
`Unlock` does not return (`fault`), and the caller gets no reply; or the call
panics on an index out of range.  `l` and `s` are the locked mutexes and the
rooms as the call leaves them. -/
inductive Outcome (α : Type) where
  | returned (l : Locks) (s : TicTacToeServer) (reply : Reply α)
  | fault (f : LockFault) (l : Locks) (s : TicTacToeServer)
  | panicked
  deriving DecidableEq

/-- The handler `PlaceMove`, entered when the mutexes of `l` are locked:
`s.Mutex.Lock()` (line 89), the lookup with `s.Mutex.Unlock()` and the error
return for a missing room (lines 90-94), `room.Mutex.Lock()` (line 95), the
data path `PlaceMoveBody` (lines 99-135), and at the return the deferred calls
of lines 96-97. -/
def PlaceMove (l : Locks) (s : TicTacToeServer) (req : PlaceMoveRequest)
    (order : List String) (relocked : Bool) : Outcome GameState :=
  match Locks.exec l [LockOp.lock MutexId.server] with
  | LockResult.fault f l1 => Outcome.fault f l1 s
  | LockResult.returned l1 =>
    match s.Rooms.lookup req.RoomId with
    | none =>
      match Locks.exec l1 [LockOp.unlock MutexId.server] with
      | LockResult.fault f l2 => Outcome.fault f l2 s
      | LockResult.returned l2 => Outcome.returned l2 s (Reply.error "room not found")
    | some _ =>
      match Locks.exec l1 [LockOp.lock (MutexId.room req.RoomId)] with
      | LockResult.fault f l2 => Outcome.fault f l2 s
      | LockResult.returned l2 =>
        match PlaceMoveBody s req order with
        | none => Outcome.panicked
        | some (s', reply) =>
          match Locks.exec l2 (PlaceMoveDeferred relocked) with
          | LockResult.fault f l3 => Outcome.fault f l3 s'
          | LockResult.returned l3 => Outcome.returned l3 s' reply

/-! ## Properties of boards and rooms -/

/-- The board has exactly three rows of exactly three cells. -/
def IsGrid (board : Board) : Prop :=
  board.length = 3 ∧ ∀ row ∈ board, row.length = 3

instance instDecidableIsGrid (board : Board) : Decidable (IsGrid board) := by
  unfold IsGrid; infer_instance

/-- The eight lines of the grid as lists of (row, column) positions: the three
rows, the three columns and the two diagonals. -/
def lines : List (List (Nat × Nat)) :=
  [[(0, 0), (0, 1), (0, 2)], [(1, 0), (1, 1), (1, 2)], [(2, 0), (2, 1), (2, 2)],
   [(0, 0), (1, 0), (2, 0)], [(0, 1), (1, 1), (2, 1)], [(0, 2), (1, 2), (2, 2)],
   [(0, 0), (1, 1), (2, 2)], [(0, 2), (1, 1), (2, 0)]]

/-- Some row, column or diagonal of the board has all three cells equal to `mark`. -/
def hasLine (board : Board) (mark : String) : Prop :=
  ∃ l ∈ lines, ∀ p ∈ l, readCell board p.1 p.2 = some mark

instance instDecidableHasLine (board : Board) (mark : String) :
    Decidable (hasLine board mark) := by
  unfold hasLine; infer_instance

/-- No empty cell remains on the board. -/
def isFull (board : Board) : Prop :=
  ∀ row ∈ board, ∀ c ∈ row, c ≠ ""

instance instDecidableIsFull (board : Board) : Decidable (isFull board) := by
  unfold isFull; infer_instance

/-- The room that an accepted move of `mover` leaves when the board after the
write is `board`: the game is over when `mover` has a line or the board is
full, and the turn goes to the first other key that the `range` loop visits. -/
def movedRoom (room : Room) (mover : String) (order : List String) (board : Board) : Room :=
  { room with
    Board := board
    IsGameOver := decide (hasLine board (mapGet room.Players mover)) || decide (isFull board)
    Winner :=
      if hasLine board (mapGet room.Players mover) then mover
      else if isFull board then "" else room.Winner
    CurrentTurn := switchTurn mover room.CurrentTurn order }

/-- The line that a recorded winner can show: a line of the mark the roster
gives the winner now (the empty mark for a name outside the roster), or, when
that mark is "O", a line of "X" or of empty cells. -/
def wonLine (room : Room) : Prop :=
  hasLine room.Board (mapGet room.Players room.Winner) ∨
    (mapGet room.Players room.Winner = "O" ∧
      (hasLine room.Board "X" ∨ hasLine room.Board ""))

/-- What holds of every room of a server reached from `newServer`. -/
structure RoomInv (room : Room) : Prop where
  grid : IsGrid room.Board
  roster_pos : 1 ≤ room.Players.keys.length
  roster_le : room.Players.keys.length ≤ 2
  marks : ∀ name mark, room.Players.lookup name = some mark → mark = "X" ∨ mark = "O"
  won : room.IsGameOver = true → room.Winner ≠ "" → wonLine room

/-- Every room of the server satisfies `RoomInv`. -/
def ServerInv (s : TicTacToeServer) : Prop :=
  ∀ roomId room, s.Rooms.lookup roomId = some room → RoomInv room

/-! ## Sequences of calls -/

/-- One call of a handler, with the values the environment supplies: the
identifier drawn by `generateRoomID` and the order of the `range` loop. -/
inductive Call where
  | create (req : CreateRoomRequest) (roomID : String)
  | join (req : JoinRoomRequest)
  | move (req : PlaceMoveRequest) (order : List String)
  deriving DecidableEq

/-- The list `order` is a visit of the keys of the roster of room `roomId`, each
key once (any list when there is no such room: the loop is not reached). -/
def RangeOrder (s : TicTacToeServer) (roomId : String) (order : List String) : Prop :=
  match s.Rooms.lookup roomId with
  | none => True
  | some room => order.Perm room.Players.keys

instance instDecidableRangeOrder (s : TicTacToeServer) (roomId : String)
    (order : List String) : Decidable (RangeOrder s roomId order) := by
  unfold RangeOrder; split <;> infer_instance

/-- The rooms after one call has run its reads and writes to the end (for
`PlaceMove`: after `PlaceMoveBody`); `none` when the call panics, or when
`order` is not an order in which the `range` loop can visit the roster. -/
def Call.run (s : TicTacToeServer) : Call → Option TicTacToeServer
  | Call.create req roomID => some (CreateRoom s req roomID).1
  | Call.join req => some (JoinRoom s req).1
  | Call.move req order =>
    if RangeOrder s req.RoomId order then (PlaceMoveBody s req order).map Prod.fst else none

/-- The server after the calls of the list, made one after the other. -/
def runCalls (s : TicTacToeServer) : List Call → Option TicTacToeServer
  | [] => some s
  | c :: calls =>
    match c.run s with
    | none => none
    | some s1 => runCalls s1 calls

/-- The states reached from the server built in `main` by a sequence of calls,
each taken to run its reads and writes to the end.  The states of the running
program are among them. -/
def Reachable (s : TicTacToeServer) : Prop :=
  ∃ calls, runCalls newServer calls = some s

/-- The call does not store a new room under the identifier `roomId`. -/
def Call.keeps (roomId : String) : Call → Prop
  | Call.create _ roomID => roomID ≠ roomId
  | _ => True

/-- The room `room'` is a later state of the room `room`: the roster has not
shrunk, and a finished game is still finished with the same board and winner. -/
def RoomLater (room room' : Room) : Prop :=
  room.Players.keys.length ≤ room'.Players.keys.length ∧
    (room.IsGameOver = true →
      room'.IsGameOver = true ∧ room'.Board = room.Board ∧ room'.Winner = room.Winner)

/-! ## Scenarios -/

/-- Alice creates room "r", Bob joins it, and Alice plays the three cells of
row 0. -/
def aliceWonCalls : List Call :=
  [Call.create ⟨"Alice"⟩ "r", Call.join ⟨"r", "Bob"⟩,
   Call.move ⟨"r", "Alice", 0, 0⟩ ["Bob", "Alice"],
   Call.move ⟨"r", "Alice", 0, 1⟩ ["Bob", "Alice"],
   Call.move ⟨"r", "Alice", 0, 2⟩ ["Bob", "Alice"]]

/-- The server after `aliceWonCalls`. -/
def aliceWon : TicTacToeServer :=
  (runCalls newServer aliceWonCalls).getD newServer

/-- The server after Alice has created room "r". -/
def aliceAlone : TicTacToeServer :=
  (CreateRoom newServer ⟨"Alice"⟩ "r").1

/-- The room "r" of `aliceAlone`. -/
def aliceAloneRoom : Room :=
  { ID := "r"
    Players := (∅ : StrMap String).insert "Alice" "X"
    CurrentTurn := "Alice"
    Board := createEmptyBoard
    IsGameOver := false
    Winner := "" }

/-- The server after Alice has created room "r" and Bob has joined it. -/
def aliceBob : TicTacToeServer :=
  (JoinRoom aliceAlone ⟨"r", "Bob"⟩).1

/-- The room "r" of `aliceBob`. -/
def aliceBobRoom : Room :=
  { ID := "r"
    Players := ((∅ : StrMap String).insert "Alice" "X").insert "Bob" "O"
    CurrentTurn := "Alice"
    Board := createEmptyBoard
    IsGameOver := false
    Winner := "" }

/-- The server after Alice has played the centre of the room of Alice and Bob. -/
def aliceFirst : TicTacToeServer :=
  (runCalls aliceBob [Call.move ⟨"r", "Alice", 1, 1⟩ ["Alice", "Bob"]]).getD aliceBob

/-- The room "r" of `aliceFirst`. -/
def aliceFirstRoom : Room :=
  { ID := "r"
    Players := ((∅ : StrMap String).insert "Alice" "X").insert "Bob" "O"
    CurrentTurn := "Bob"
    Board := [["", "", ""], ["", "X", ""], ["", "", ""]]
    IsGameOver := false
    Winner := "" }

/-- The server after Bob, who does not hold the turn, has played the cell (0,0)
of the room of Alice and Bob. -/
def bobFirst : TicTacToeServer :=
  (runCalls aliceBob [Call.move ⟨"r", "Bob", 0, 0⟩ ["Bob", "Alice"]]).getD aliceBob

/-- The room "r" of `bobFirst`. -/
def bobFirstRoom : Room :=
  { ID := "r"
    Players := ((∅ : StrMap String).insert "Alice" "X").insert "Bob" "O"
    CurrentTurn := "Alice"
    Board := [["O", "", ""], ["", "", ""], ["", "", ""]]
    IsGameOver := false
    Winner := "" }

/-- The server after Alice has played (0,0) in the room of Alice and Bob. -/
def aliceOpened : TicTacToeServer :=
  (runCalls aliceBob [Call.move ⟨"r", "Alice", 0, 0⟩ ["Bob", "Alice"]]).getD aliceBob

/-- The room "r" of `aliceOpened`. -/
def aliceOpenedRoom : Room :=
  { ID := "r"
    Players := ((∅ : StrMap String).insert "Alice" "X").insert "Bob" "O"
    CurrentTurn := "Bob"
    Board := [["X", "", ""], ["", "", ""], ["", "", ""]]
    IsGameOver := false
    Winner := "" }

/-- The server after Zed, who is not in the roster, has played (1,1) in the room
created by Alice. -/
def zedWon : TicTacToeServer :=
  (runCalls aliceAlone [Call.move ⟨"r", "Zed", 1, 1⟩ ["Alice"]]).getD aliceAlone

/-- The room "r" of `zedWon`. -/
def zedWonRoom : Room :=
  { ID := "r"
    Players := (∅ : StrMap String).insert "Alice" "X"
    CurrentTurn := "Alice"
    Board := createEmptyBoard
    IsGameOver := true
    Winner := "Zed" }

/-- The server after `JoinRoom` under the name Zed on `zedWon`. -/
def zedJoined : TicTacToeServer :=
  (JoinRoom zedWon ⟨"r", "Zed"⟩).1

/-- The room "r" of `zedJoined`. -/
def zedJoinedRoom : Room :=
  { ID := "r"
    Players := ((∅ : StrMap String).insert "Alice" "X").insert "Zed" "O"
    CurrentTurn := "Alice"
    Board := createEmptyBoard
    IsGameOver := true
    Winner := "Zed" }

/-- The server after Zed, who is not in the roster, has played (1,1) in the room
of Alice and Bob, the range loop visiting Bob first. -/
def zedEnds : TicTacToeServer :=
  (runCalls aliceBob [Call.move ⟨"r", "Zed", 1, 1⟩ ["Bob", "Alice"]]).getD aliceBob

/-- The room "r" of `zedEnds`. -/
def zedEndsRoom : Room :=
  { ID := "r"
    Players := ((∅ : StrMap String).insert "Alice" "X").insert "Bob" "O"
    CurrentTurn := "Bob"
    Board := createEmptyBoard
    IsGameOver := true
    Winner := "Zed" }

/-- The identifier that `generateRoomID` returns when every draw is 0. -/
def firstId : String := generateRoomID fun _ => 0

/-- The server after Alice has created a room under `firstId` and played its
centre. -/
def aliceGenerated : TicTacToeServer :=
  (runCalls newServer
    [Call.create ⟨"Alice"⟩ firstId,
     Call.move ⟨firstId, "Alice", 1, 1⟩ ["Alice"]]).getD newServer

/-- The room of `aliceGenerated`. -/
def aliceGeneratedRoom : Room :=
  { ID := "aaaaaaaa"
    Players := (∅ : StrMap String).insert "Alice" "X"
    CurrentTurn := "Alice"
    Board := [["", "", ""], ["", "X", ""], ["", "", ""]]
    IsGameOver := false
    Winner := "" }

/-- The room that `CreateRoom` builds for Carol under `firstId`. -/
def carolRoom : Room :=
  { ID := "aaaaaaaa"
    Players := (∅ : StrMap String).insert "Carol" "X"
    CurrentTurn := "Carol"
    Board := createEmptyBoard
    IsGameOver := false
    Winner := "" }

/-- The room "r" of `aliceWon`. -/
def aliceWonRoom : Room :=
  { ID := "r"
    Players := ((∅ : StrMap String).insert "Alice" "X").insert "Bob" "O"
    CurrentTurn := "Bob"
    Board := [["X", "X", "X"], ["", "", ""], ["", "", ""]]
    IsGameOver := true
    Winner := "Alice" }


/-! ## Boards -/

theorem IsGrid.eq_grid {board : Board} (hg : IsGrid board) :
    ∃ a b c d e f g h i : String, board = [[a, b, c], [d, e, f], [g, h, i]] := by
  obtain ⟨hl, hr⟩ := hg
  match board, hl with
  | [r0, r1, r2], _ =>
    have h0 := hr r0 (by simp)
    have h1 := hr r1 (by simp)
    have h2 := hr r2 (by simp)
    match r0, h0, r1, h1, r2, h2 with
    | [a, b, c], _, [d, e, f], _, [g, h, i], _ => exact ⟨a, b, c, d, e, f, g, h, i, rfl⟩

theorem isGrid_grid (a b c d e f g h i : String) :
    IsGrid [[a, b, c], [d, e, f], [g, h, i]] := by
  simp [IsGrid]

theorem andThen_some (a b : Bool) : andThen (some a) (some b) = some (a && b) := by
  cases a <;> rfl

theorem orElse_some (a b : Bool) : orElse (some a) (some b) = some (a || b) := by
  cases a <;> rfl

theorem checkWin_grid (a b c d e f g h i symbol : String) :
    checkWin [[a, b, c], [d, e, f], [g, h, i]] symbol =
      some (decide (a = symbol) && decide (b = symbol) && decide (c = symbol)
        || decide (d = symbol) && decide (e = symbol) && decide (f = symbol)
        || decide (g = symbol) && decide (h = symbol) && decide (i = symbol)
        || decide (a = symbol) && decide (d = symbol) && decide (g = symbol)
        || decide (b = symbol) && decide (e = symbol) && decide (h = symbol)
        || decide (c = symbol) && decide (f = symbol) && decide (i = symbol)
        || decide (a = symbol) && decide (e = symbol) && decide (i = symbol)
        || decide (c = symbol) && decide (e = symbol) && decide (g = symbol)) := by
  simp only [checkWin, checkWinLoop, cellIs, readCell, List.getElem?_cons_zero,
    List.getElem?_cons_succ, Option.map_some', andThen_some, orElse_some]
  generalize decide (a = symbol) = A
  generalize decide (b = symbol) = B
  generalize decide (c = symbol) = C
  generalize decide (d = symbol) = D
  generalize decide (e = symbol) = E
  generalize decide (f = symbol) = F
  generalize decide (g = symbol) = G
  generalize decide (h = symbol) = H
  generalize decide (i = symbol) = I
  revert A B C D E F G H I
  decide

theorem hasLine_grid (a b c d e f g h i mark : String) :
    hasLine [[a, b, c], [d, e, f], [g, h, i]] mark ↔
      (a = mark ∧ b = mark ∧ c = mark) ∨ (d = mark ∧ e = mark ∧ f = mark) ∨
      (g = mark ∧ h = mark ∧ i = mark) ∨ (a = mark ∧ d = mark ∧ g = mark) ∨
      (b = mark ∧ e = mark ∧ h = mark) ∨ (c = mark ∧ f = mark ∧ i = mark) ∨
      (a = mark ∧ e = mark ∧ i = mark) ∨ (c = mark ∧ e = mark ∧ g = mark) := by
  simp only [hasLine, lines, List.mem_cons, List.mem_singleton, List.not_mem_nil, or_false,
    exists_eq_or_imp, forall_eq_or_imp, exists_eq_left, forall_eq, readCell,
    List.getElem?_cons_zero, List.getElem?_cons_succ, Option.some.injEq]

/-- On a 3x3 board `checkWin` returns, and its value tells whether a line is
complete. -/
theorem checkWin_of_grid {board : Board} (hg : IsGrid board) (symbol : String) :
    checkWin board symbol = some (decide (hasLine board symbol)) := by
  obtain ⟨a, b, c, d, e, f, g, h, i, rfl⟩ := hg.eq_grid
  rw [checkWin_grid, Option.some.injEq, Bool.eq_iff_iff, decide_eq_true_iff, hasLine_grid]
  simp only [Bool.or_eq_true, Bool.and_eq_true, decide_eq_true_eq, and_assoc, or_assoc]

theorem isFull_grid (a b c d e f g h i : String) :
    isFull [[a, b, c], [d, e, f], [g, h, i]] ↔
      a ≠ "" ∧ b ≠ "" ∧ c ≠ "" ∧ d ≠ "" ∧ e ≠ "" ∧ f ≠ "" ∧ g ≠ "" ∧ h ≠ "" ∧ i ≠ "" := by
  simp only [isFull, List.mem_cons, List.mem_singleton, List.not_mem_nil, or_false,
    forall_eq_or_imp, forall_eq, and_assoc]

theorem checkDraw_grid (a b c d e f g h i : String) :
    checkDraw [[a, b, c], [d, e, f], [g, h, i]] =
      some (decide (isFull [[a, b, c], [d, e, f], [g, h, i]])) := by
  simp only [checkDraw, checkDrawLoop, checkDrawRow, readCell, List.getElem?_cons_zero,
    List.getElem?_cons_succ, isFull_grid]
  by_cases ha : a = "" <;> by_cases hb : b = "" <;> by_cases hc : c = "" <;>
    by_cases hd : d = "" <;> by_cases he : e = "" <;> by_cases hf : f = "" <;>
    by_cases hg : g = "" <;> by_cases hh : h = "" <;> by_cases hi : i = "" <;>
    simp [ha, hb, hc, hd, he, hf, hg, hh, hi]

theorem checkDraw_of_grid {board : Board} (hg : IsGrid board) :
    checkDraw board = some (decide (isFull board)) := by
  obtain ⟨a, b, c, d, e, f, g, h, i, rfl⟩ := hg.eq_grid
  exact checkDraw_grid a b c d e f g h i

theorem readCell_writeCell {board board' : Board} {i j : Nat} {v : String}
    (hw : writeCell board i j v = some board') (i' j' : Nat) :
    readCell board' i' j' = if i' = i ∧ j' = j then some v else readCell board i' j' := by
  unfold writeCell at hw
  cases hrow : board[i]? with
  | none => simp [hrow] at hw
  | some row =>
    simp only [hrow] at hw
    split at hw
    · rename_i hj
      obtain rfl := Option.some.inj hw
      obtain ⟨hi, -⟩ := List.getElem?_eq_some.mp hrow
      unfold readCell
      by_cases hii : i = i'
      · subst hii
        simp only [List.getElem?_set, hi, if_true, true_and, hrow]
        by_cases hjj : j = j'
        · subst hjj; simp [hj]
        · simp [hjj, Ne.symm hjj]
      · simp [List.getElem?_set, hii, Ne.symm hii]
    · simp at hw

theorem isGrid_writeCell {board board' : Board} {i j : Nat} {v : String}
    (hg : IsGrid board) (hw : writeCell board i j v = some board') : IsGrid board' := by
  unfold writeCell at hw
  cases hrow : board[i]? with
  | none => simp [hrow] at hw
  | some row =>
    simp only [hrow] at hw
    split at hw
    · obtain rfl := Option.some.inj hw
      obtain ⟨hi, hrow'⟩ := List.getElem?_eq_some.mp hrow
      refine ⟨by simpa using hg.1, fun r hr => ?_⟩
      rcases List.mem_or_eq_of_mem_set hr with hmem | rfl
      · exact hg.2 r hmem
      · rw [List.length_set]
        exact hg.2 row (hrow' ▸ List.getElem_mem hi)
    · simp at hw

theorem writeCell_of_grid {board : Board} (hg : IsGrid board) {i j : Nat}
    (hi : i < 3) (hj : j < 3) (v : String) : ∃ board', writeCell board i j v = some board' := by
  have hi' : i < board.length := by rw [hg.1]; exact hi
  have hrow : board[i]? = some board[i] := List.getElem?_eq_getElem hi'
  have hlen : board[i].length = 3 := hg.2 _ (List.getElem_mem hi')
  refine ⟨board.set i (board[i].set j v), ?_⟩
  simp [writeCell, hrow, hlen, hj]

theorem readCell_of_grid {board : Board} (hg : IsGrid board) {i j : Nat}
    (hi : i < 3) (hj : j < 3) : ∃ c, readCell board i j = some c := by
  have hi' : i < board.length := by rw [hg.1]; exact hi
  have hrow : board[i]? = some board[i] := List.getElem?_eq_getElem hi'
  have hlen : board[i].length = 3 := hg.2 _ (List.getElem_mem hi')
  refine ⟨board[i][j], ?_⟩
  simp [readCell, hrow, hlen, hj]

theorem cellAt_eq {board : Board} {row col : Int} (hr : 0 ≤ row) (hc : 0 ≤ col) :
    cellAt board row col = readCell board row.toNat col.toNat := by
  simp [cellAt, not_lt.mpr hr, not_lt.mpr hc]

theorem setCellAt_eq {board : Board} {row col : Int} (hr : 0 ≤ row) (hc : 0 ≤ col)
    (v : String) : setCellAt board row col v = writeCell board row.toNat col.toNat v := by
  simp [setCellAt, not_lt.mpr hr, not_lt.mpr hc]

theorem toNat_lt_three {x : Int} (h0 : 0 ≤ x) (h3 : x < 3) : x.toNat < 3 := by
  omega


/-! ## The data path of `PlaceMove` -/

theorem PlaceMoveBody_notFound {s : TicTacToeServer} {req : PlaceMoveRequest}
    (order : List String) (hroom : s.Rooms.lookup req.RoomId = none) :
    PlaceMoveBody s req order = some (s, Reply.error "room not found") := by
  simp [PlaceMoveBody, hroom]

theorem PlaceMoveBody_occupied {s : TicTacToeServer} {req : PlaceMoveRequest} {room : Room}
    {c : String} (order : List String) (hroom : s.Rooms.lookup req.RoomId = some room)
    (hcell : cellAt room.Board req.Row req.Col = some c) (hc : c ≠ "") :
    PlaceMoveBody s req order = some (s, Reply.error "cell already occupied") := by
  simp [PlaceMoveBody, hroom, hcell, hc]

theorem PlaceMoveBody_over {s : TicTacToeServer} {req : PlaceMoveRequest} {room : Room}
    (order : List String) (hroom : s.Rooms.lookup req.RoomId = some room)
    (hcell : cellAt room.Board req.Row req.Col = some "") (hover : room.IsGameOver = true) :
    PlaceMoveBody s req order = some (s, Reply.error "game is already over") := by
  simp [PlaceMoveBody, hroom, hcell, hover]

/-- The room left by an accepted move that wrote `board` for the player `mover`. -/
theorem PlaceMoveBody_accept {s : TicTacToeServer} {req : PlaceMoveRequest} {room : Room}
    (order : List String) (hroom : s.Rooms.lookup req.RoomId = some room)
    (hg : IsGrid room.Board) (hr0 : 0 ≤ req.Row) (hr3 : req.Row < 3)
    (hc0 : 0 ≤ req.Col) (hc3 : req.Col < 3)
    (hcell : cellAt room.Board req.Row req.Col = some "")
    (hover : room.IsGameOver = false) :
    ∃ board, writeCell room.Board req.Row.toNat req.Col.toNat
        (mapGet room.Players req.PlayerName) = some board ∧ IsGrid board ∧
      PlaceMoveBody s req order = some
        (⟨s.Rooms.insert req.RoomId (movedRoom room req.PlayerName order board)⟩,
          Reply.ok ⟨board, (movedRoom room req.PlayerName order board).IsGameOver,
            (movedRoom room req.PlayerName order board).Winner⟩) := by
  obtain ⟨board, hw⟩ := writeCell_of_grid hg (toNat_lt_three hr0 hr3)
    (toNat_lt_three hc0 hc3) (mapGet room.Players req.PlayerName)
  have hg' : IsGrid board := isGrid_writeCell hg hw
  refine ⟨board, hw, hg', ?_⟩
  simp only [PlaceMoveBody, hroom, hcell, hover, setCellAt_eq hr0 hc0, hw, checkWin_of_grid hg',
    checkDraw_of_grid hg', movedRoom]
  by_cases hl : hasLine board (mapGet room.Players req.PlayerName) <;>
    by_cases hf : isFull board <;> simp [hl, hf, andThen]


/-- A call of `PlaceMoveBody` that returns either fails and leaves the server as it
was, or succeeds and replaces one in-progress room whose target cell was empty,
keeping its roster. -/
theorem PlaceMoveBody_inv {s s' : TicTacToeServer} {req : PlaceMoveRequest} {order : List String}
    {reply : Reply GameState} (h : PlaceMoveBody s req order = some (s', reply)) :
    (s' = s ∧ ∃ msg, reply = Reply.error msg) ∨
    ∃ room room', s.Rooms.lookup req.RoomId = some room ∧
      room.IsGameOver = false ∧ cellAt room.Board req.Row req.Col = some "" ∧
      room'.Players = room.Players ∧
      room'.CurrentTurn = switchTurn req.PlayerName room.CurrentTurn order ∧
      reply = Reply.ok ⟨room'.Board, room'.IsGameOver, room'.Winner⟩ ∧
      s' = ⟨s.Rooms.insert req.RoomId room'⟩ := by
  unfold PlaceMoveBody at h
  split at h
  · left; simp at h; exact ⟨h.1.symm, _, h.2.symm⟩
  · rename_i room hroom
    split at h
    · simp at h
    · rename_i c hcell
      split at h
      · left; simp at h; exact ⟨h.1.symm, _, h.2.symm⟩
      · rename_i hc
        split at h
        · left; simp at h; exact ⟨h.1.symm, _, h.2.symm⟩
        · rename_i hover
          right
          have hc' : c = "" := by simpa using hc
          subst hc'
          simp only [] at h
          split at h
          · simp at h
          · split at h
            · simp at h
            · split at h
              · simp at h
              · simp only [Option.some.injEq, Prod.mk.injEq] at h
                refine ⟨room, _, hroom, by simpa using hover, hcell, ?_, ?_, ?_, h.1.symm⟩
                · split <;> split <;> rfl
                · split <;> split <;> rfl
                · exact h.2.symm

/-! ## Maps -/

theorem lookup_insert_cases {β : Type} (m : StrMap β) (k k' : String) (v : β) :
    (m.insert k' v).lookup k = if k = k' then some v else m.lookup k := by
  by_cases h : k = k'
  · subst h; simp
  · simp [h, AList.lookup_insert_ne h]

theorem keys_length_insert_pos (m : StrMap String) (k v : String) :
    1 ≤ (m.insert k v).keys.length := by
  simp [AList.keys_insert]

theorem keys_length_insert_le (m : StrMap String) (k v : String) :
    (m.insert k v).keys.length ≤ m.keys.length + 1 := by
  simp only [AList.keys_insert, List.length_cons, add_le_add_iff_right]
  exact (List.erase_sublist k m.keys).length_le

theorem keys_length_insert_ge (m : StrMap String) (k v : String) :
    m.keys.length ≤ (m.insert k v).keys.length := by
  simp only [AList.keys_insert, List.length_cons]
  by_cases h : k ∈ m.keys
  · rw [List.length_erase_of_mem h]; omega
  · rw [List.erase_of_not_mem h]; omega

theorem keys_length_insert_new (m : StrMap String) (k v : String) (h : k ∉ m.keys) :
    (m.insert k v).keys.length = m.keys.length + 1 := by
  simp [AList.keys_insert, List.erase_of_not_mem h]

theorem mapGet_insert (m : StrMap String) (k k' v : String) :
    mapGet (m.insert k' v) k = if k = k' then v else mapGet m k := by
  unfold mapGet
  rw [lookup_insert_cases]
  split <;> rfl

theorem mapGet_marks {m : StrMap String}
    (hm : ∀ name mark, m.lookup name = some mark → mark = "X" ∨ mark = "O") (k : String) :
    mapGet m k = "X" ∨ mapGet m k = "O" ∨ mapGet m k = "" := by
  unfold mapGet
  cases h : m.lookup k with
  | none => simp
  | some v => rcases hm k v h with rfl | rfl <;> simp

theorem cellAt_range {board : Board} (hg : IsGrid board) {row col : Int} {c : String}
    (h : cellAt board row col = some c) : 0 ≤ row ∧ row < 3 ∧ 0 ≤ col ∧ col < 3 := by
  unfold cellAt at h
  split at h
  · simp at h
  · rename_i hneg
    have hr : 0 ≤ row := by omega
    have hc : 0 ≤ col := by omega
    unfold readCell at h
    cases hrow : board[row.toNat]? with
    | none => simp [hrow] at h
    | some r =>
      simp only [hrow] at h
      obtain ⟨hi, hri⟩ := List.getElem?_eq_some.mp hrow
      obtain ⟨hj, -⟩ := List.getElem?_eq_some.mp h
      have hlen : r.length = 3 := hg.2 r (hri ▸ List.getElem_mem hi)
      rw [hg.1] at hi
      rw [hlen] at hj
      omega

/-- On a server whose boards are grids, a call of `PlaceMoveBody` that returns either
leaves the server as it was or replaces one in-progress room by `movedRoom`. -/
theorem PlaceMoveBody_cases {s s' : TicTacToeServer} {req : PlaceMoveRequest}
    {order : List String} {reply : Reply GameState}
    (h : PlaceMoveBody s req order = some (s', reply))
    (hgrid : ∀ room, s.Rooms.lookup req.RoomId = some room → IsGrid room.Board) :
    s' = s ∨ ∃ room board, s.Rooms.lookup req.RoomId = some room ∧
      room.IsGameOver = false ∧ IsGrid board ∧
      writeCell room.Board req.Row.toNat req.Col.toNat
        (mapGet room.Players req.PlayerName) = some board ∧
      s' = ⟨s.Rooms.insert req.RoomId (movedRoom room req.PlayerName order board)⟩ := by
  rcases PlaceMoveBody_inv h with ⟨hs, -⟩ | ⟨room, -, hroom, hover, hcell, -, -, -, -⟩
  · exact Or.inl hs
  · obtain ⟨hr0, hr3, hc0, hc3⟩ := cellAt_range (hgrid room hroom) hcell
    obtain ⟨board, hw, hg', hpm⟩ :=
      PlaceMoveBody_accept order hroom (hgrid room hroom) hr0 hr3 hc0 hc3 hcell hover
    rw [hpm] at h
    simp only [Option.some.injEq, Prod.mk.injEq] at h
    exact Or.inr ⟨room, board, hroom, hover, hg', hw, h.1.symm⟩

/-! ## The invariant -/

theorem serverInv_newServer : ServerInv newServer := by
  intro roomId room h
  simp [newServer] at h

theorem serverInv_insert {s : TicTacToeServer} (hs : ServerInv s) (roomId : String)
    {room : Room} (hroom : RoomInv room) : ServerInv ⟨s.Rooms.insert roomId room⟩ := by
  intro k r h
  rw [lookup_insert_cases] at h
  split at h
  · obtain rfl := Option.some.inj h
    exact hroom
  · exact hs k r h

theorem serverInv_CreateRoom {s : TicTacToeServer} (hs : ServerInv s)
    (req : CreateRoomRequest) (roomID : String) : ServerInv (CreateRoom s req roomID).1 := by
  refine serverInv_insert hs roomID ⟨?_, ?_, ?_, ?_, ?_⟩
  · exact isGrid_grid _ _ _ _ _ _ _ _ _
  · exact keys_length_insert_pos _ _ _
  · exact (keys_length_insert_le _ _ _).trans (by simp)
  · intro name mark h
    rw [lookup_insert_cases] at h
    split at h
    · left; exact (Option.some.inj h).symm
    · simp at h
  · intro h; simp at h

theorem roomInv_join {room : Room} (hroom : RoomInv room) (name : String)
    (hlen : ¬ room.Players.keys.length ≥ 2) :
    RoomInv { room with Players := room.Players.insert name "O" } := by
  refine ⟨hroom.grid, keys_length_insert_pos _ _ _, ?_, ?_, ?_⟩
  · have := keys_length_insert_le room.Players name "O"
    simp only at this ⊢
    omega
  · intro k mark h
    simp only at h
    rw [lookup_insert_cases] at h
    split at h
    · right; exact (Option.some.inj h).symm
    · exact hroom.marks k mark h
  · intro hover hwin
    have hold := hroom.won hover hwin
    unfold wonLine at hold ⊢
    simp only [mapGet_insert]
    split
    · rcases mapGet_marks hroom.marks room.Winner with hm | hm | hm
      · rw [hm] at hold
        rcases hold with hl | ⟨hO, -⟩
        · exact Or.inr ⟨rfl, Or.inl hl⟩
        · exact absurd hO (by decide)
      · rw [hm] at hold
        rcases hold with hl | ⟨-, hl⟩
        · exact Or.inl hl
        · exact Or.inr ⟨rfl, hl⟩
      · rw [hm] at hold
        rcases hold with hl | ⟨hO, -⟩
        · exact Or.inr ⟨rfl, Or.inr hl⟩
        · exact absurd hO (by decide)
    · exact hold

theorem serverInv_JoinRoom {s : TicTacToeServer} (hs : ServerInv s)
    (req : JoinRoomRequest) : ServerInv (JoinRoom s req).1 := by
  unfold JoinRoom
  split
  · exact hs
  · rename_i room hroom
    split
    · exact hs
    · rename_i hlen
      exact serverInv_insert hs _ (roomInv_join (hs _ _ hroom) _ hlen)

theorem roomInv_movedRoom {room : Room} (hroom : RoomInv room) (mover : String)
    (order : List String) {board : Board} (hg : IsGrid board) :
    RoomInv (movedRoom room mover order board) := by
  refine ⟨hg, hroom.roster_pos, hroom.roster_le, hroom.marks, ?_⟩
  intro hover hwin
  unfold movedRoom at hover hwin
  unfold wonLine movedRoom
  simp only at hover hwin ⊢
  by_cases hl : hasLine board (mapGet room.Players mover)
  · left; simp [hl]
  · by_cases hf : isFull board
    · simp [hl, hf] at hwin
    · simp [hl, hf] at hover

theorem serverInv_PlaceMoveBody {s s' : TicTacToeServer} (hs : ServerInv s)
    {req : PlaceMoveRequest} {order : List String} {reply : Reply GameState}
    (h : PlaceMoveBody s req order = some (s', reply)) : ServerInv s' := by
  rcases PlaceMoveBody_cases h (fun room hroom => (hs _ room hroom).grid) with
    rfl | ⟨room, board, hroom, -, hg, -, rfl⟩
  · exact hs
  · exact serverInv_insert hs _ (roomInv_movedRoom (hs _ _ hroom) _ _ hg)

theorem serverInv_run {s s1 : TicTacToeServer} (hs : ServerInv s) {c : Call}
    (h : c.run s = some s1) : ServerInv s1 := by
  cases c with
  | create req roomID =>
    obtain rfl := Option.some.inj h
    exact serverInv_CreateRoom hs req roomID
  | join req =>
    obtain rfl := Option.some.inj h
    exact serverInv_JoinRoom hs req
  | move req order =>
    simp only [Call.run] at h
    split at h
    · cases hpm : PlaceMoveBody s req order with
      | none => simp [hpm] at h
      | some res =>
        obtain ⟨s', reply⟩ := res
        simp only [hpm, Option.map_some', Option.some.injEq] at h
        subst h
        exact serverInv_PlaceMoveBody hs hpm
    · simp at h

theorem serverInv_runCalls {calls : List Call} {s t : TicTacToeServer}
    (hrun : runCalls s calls = some t) (hs : ServerInv s) : ServerInv t := by
  induction calls generalizing s with
  | nil =>
    obtain rfl := Option.some.inj hrun
    exact hs
  | cons c calls ih =>
    simp only [runCalls] at hrun
    split at hrun
    · simp at hrun
    · rename_i s1 hc
      exact ih hrun (serverInv_run hs hc)

theorem serverInv_of_reachable {s : TicTacToeServer} (h : Reachable s) : ServerInv s := by
  obtain ⟨calls, hrun⟩ := h
  exact serverInv_runCalls hrun serverInv_newServer

/-! ## The turn -/

theorem switchTurn_other {mover : String} (cur : String) {order : List String}
    (h : ∃ p ∈ order, p ≠ mover) :
    switchTurn mover cur order ∈ order ∧ switchTurn mover cur order ≠ mover := by
  induction order with
  | nil => obtain ⟨p, hp, -⟩ := h; simp at hp
  | cons q rest ih =>
    unfold switchTurn
    split
    · rename_i hq
      exact ⟨List.mem_cons_self _ _, hq⟩
    · rename_i hq
      have hq' : q = mover := by simpa using hq
      obtain ⟨p, hp, hpm⟩ := h
      rcases List.mem_cons.mp hp with rfl | hp'
      · exact absurd hq' hpm
      · obtain ⟨h1, h2⟩ := ih ⟨p, hp', hpm⟩
        exact ⟨List.mem_cons_of_mem _ h1, h2⟩

theorem two_keys_other {keys : List String} (hnd : keys.Nodup) (hlen : keys.length = 2)
    {mover : String} (hmem : mover ∈ keys) :
    (∃ p ∈ keys, p ≠ mover) ∧
      ∀ p ∈ keys, ∀ q ∈ keys, p ≠ mover → q ≠ mover → p = q := by
  match keys, hlen with
  | [a, b], _ =>
    have hab : a ≠ b := by simpa using hnd
    simp only [List.mem_cons, List.mem_singleton, List.not_mem_nil, or_false] at hmem ⊢
    constructor
    · rcases hmem with rfl | rfl
      · exact ⟨b, Or.inr rfl, fun h => hab h.symm⟩
      · exact ⟨a, Or.inl rfl, hab⟩
    · rintro p (rfl | rfl) q (rfl | rfl) hp hq
      · rfl
      · rcases hmem with rfl | rfl
        · exact absurd rfl hp
        · exact absurd rfl hq
      · rcases hmem with rfl | rfl
        · exact absurd rfl hq
        · exact absurd rfl hp
      · rfl

/-! ## Later states of a room -/

theorem roomLater_refl (room : Room) : RoomLater room room :=
  ⟨le_refl _, fun h => ⟨h, rfl, rfl⟩⟩

theorem roomLater_trans {a b c : Room} (hab : RoomLater a b) (hbc : RoomLater b c) :
    RoomLater a c := by
  refine ⟨hab.1.trans hbc.1, fun h => ?_⟩
  obtain ⟨h1, h2, h3⟩ := hab.2 h
  obtain ⟨h4, h5, h6⟩ := hbc.2 h1
  exact ⟨h4, h5.trans h2, h6.trans h3⟩

/-- A call that does not store a new room under `roomId` leaves a later state of
the room `roomId`. -/
theorem run_keeps {s s1 : TicTacToeServer} {c : Call} {roomId : String} {room : Room}
    (hc : c.run s = some s1) (hkeep : Call.keeps roomId c)
    (hroom : s.Rooms.lookup roomId = some room) :
    ∃ room1, s1.Rooms.lookup roomId = some room1 ∧ RoomLater room room1 := by
  cases c with
  | create req roomID =>
    obtain rfl := Option.some.inj hc
    refine ⟨room, ?_, roomLater_refl room⟩
    have hne : roomId ≠ roomID := fun h => hkeep h.symm
    simp only [CreateRoom]
    rw [lookup_insert_cases, if_neg hne]
    exact hroom
  | join req =>
    obtain rfl := Option.some.inj hc
    unfold JoinRoom
    split
    · exact ⟨room, hroom, roomLater_refl room⟩
    · rename_i room0 hroom0
      split
      · exact ⟨room, hroom, roomLater_refl room⟩
      · simp only [lookup_insert_cases]
        split
        · rename_i heq
          subst heq
          rw [hroom] at hroom0
          obtain rfl := Option.some.inj hroom0
          exact ⟨_, rfl, keys_length_insert_ge _ _ _, fun h => ⟨h, rfl, rfl⟩⟩
        · exact ⟨room, hroom, roomLater_refl room⟩
  | move req order =>
    simp only [Call.run] at hc
    split at hc
    · cases hpm : PlaceMoveBody s req order with
      | none => simp [hpm] at hc
      | some res =>
        obtain ⟨s', reply⟩ := res
        simp only [hpm, Option.map_some', Option.some.injEq] at hc
        subst hc
        rcases PlaceMoveBody_inv hpm with ⟨rfl, -⟩ | ⟨room0, room', hroom0, hover, -, hpl, -, -, rfl⟩
        · exact ⟨room, hroom, roomLater_refl room⟩
        · simp only [lookup_insert_cases]
          split
          · rename_i heq
            subst heq
            rw [hroom] at hroom0
            obtain rfl := Option.some.inj hroom0
            refine ⟨_, rfl, by rw [hpl], fun h => ?_⟩
            rw [hover] at h
            exact absurd h (by decide)
          · exact ⟨room, hroom, roomLater_refl room⟩
    · simp at hc

/-- Calls that do not store a new room under `roomId` leave a later state of the
room `roomId`. -/
theorem runCalls_keeps {calls : List Call} {s t : TicTacToeServer} {roomId : String}
    {room : Room} (hrun : runCalls s calls = some t)
    (hkeep : ∀ c ∈ calls, Call.keeps roomId c)
    (hroom : s.Rooms.lookup roomId = some room) :
    ∃ room', t.Rooms.lookup roomId = some room' ∧ RoomLater room room' := by
  induction calls generalizing s room with
  | nil =>
    obtain rfl := Option.some.inj hrun
    exact ⟨room, hroom, roomLater_refl room⟩
  | cons c calls ih =>
    simp only [runCalls] at hrun
    split at hrun
    · simp at hrun
    · rename_i s1 hc
      obtain ⟨room1, hroom1, hl1⟩ := run_keeps hc (hkeep c (List.mem_cons_self _ _)) hroom
      obtain ⟨room', hroom', hl'⟩ :=
        ih hrun (fun c' hc' => hkeep c' (List.mem_cons_of_mem _ hc')) hroom1
      exact ⟨room', hroom', roomLater_trans hl1 hl'⟩

/-! ## Further facts on one call -/

theorem set_same {α : Type} {l : List α} {i : Nat} {a : α} (h : l[i]? = some a) :
    l.set i a = l := by
  induction l generalizing i with
  | nil => rfl
  | cons x xs ih =>
    cases i with
    | zero =>
      simp only [List.getElem?_cons_zero, Option.some.injEq] at h
      simp [h]
    | succ n =>
      simp only [List.getElem?_cons_succ] at h
      simp [ih h]

theorem writeCell_same {board : Board} {i j : Nat} {v : String}
    (h : readCell board i j = some v) : writeCell board i j v = some board := by
  unfold readCell at h
  unfold writeCell
  cases hrow : board[i]? with
  | none => simp [hrow] at h
  | some row =>
    simp only [hrow] at h ⊢
    obtain ⟨hj, -⟩ := List.getElem?_eq_some.mp h
    rw [if_pos hj, set_same h, set_same hrow]

/-- A call of `PlaceMoveBody` that changes the server writes the mover's mark into the
target cell, which was empty, of one in-progress room. -/
theorem PlaceMoveBody_inv_board {s s' : TicTacToeServer} {req : PlaceMoveRequest}
    {order : List String} {reply : Reply GameState}
    (h : PlaceMoveBody s req order = some (s', reply)) :
    s' = s ∨
    ∃ room room' board, s.Rooms.lookup req.RoomId = some room ∧
      room.IsGameOver = false ∧
      readCell room.Board req.Row.toNat req.Col.toNat = some "" ∧
      writeCell room.Board req.Row.toNat req.Col.toNat
        (mapGet room.Players req.PlayerName) = some board ∧
      room'.Board = board ∧ room'.Players = room.Players ∧
      s' = ⟨s.Rooms.insert req.RoomId room'⟩ := by
  unfold PlaceMoveBody at h
  split at h
  · left; simp at h; exact h.1.symm
  · rename_i room hroom
    split at h
    · simp at h
    · rename_i c hcell
      split at h
      · left; simp at h; exact h.1.symm
      · rename_i hc
        split at h
        · left; simp at h; exact h.1.symm
        · rename_i hover
          right
          have hc' : c = "" := by simpa using hc
          subst hc'
          have hpos : 0 ≤ req.Row ∧ 0 ≤ req.Col := by
            unfold cellAt at hcell
            split at hcell
            · simp at hcell
            · omega
          simp only [] at h
          split at h
          · simp at h
          · rename_i board hset
            split at h
            · simp at h
            · split at h
              · simp at h
              · simp only [Option.some.injEq, Prod.mk.injEq] at h
                rw [cellAt_eq hpos.1 hpos.2] at hcell
                rw [setCellAt_eq hpos.1 hpos.2] at hset
                refine ⟨room, _, board, hroom, by simpa using hover, hcell, hset, ?_, ?_,
                  h.1.symm⟩
                · split <;> split <;> rfl
                · split <;> split <;> rfl

/-- A call of `PlaceMoveBody` that returns leaves a later state of every room. -/
theorem PlaceMoveBody_later {s s' : TicTacToeServer} {req : PlaceMoveRequest}
    {order : List String} {reply : Reply GameState} {roomId : String} {room : Room}
    (h : PlaceMoveBody s req order = some (s', reply))
    (hroom : s.Rooms.lookup roomId = some room) :
    ∃ room', s'.Rooms.lookup roomId = some room' ∧ RoomLater room room' := by
  rcases PlaceMoveBody_inv h with ⟨rfl, -⟩ | ⟨room0, room', hroom0, hover, -, hpl, -, -, rfl⟩
  · exact ⟨room, hroom, roomLater_refl room⟩
  · simp only [lookup_insert_cases]
    split
    · rename_i heq
      subst heq
      rw [hroom] at hroom0
      obtain rfl := Option.some.inj hroom0
      refine ⟨_, rfl, by rw [hpl], fun hov => ?_⟩
      rw [hover] at hov
      exact absurd hov (by decide)
    · exact ⟨room, hroom, roomLater_refl room⟩

/-- On a room with a 3x3 board a call of `PlaceMoveBody` with row and column in [0,3)
returns. -/
theorem PlaceMoveBody_returns {s : TicTacToeServer} {req : PlaceMoveRequest} {room : Room}
    (order : List String) (hroom : s.Rooms.lookup req.RoomId = some room)
    (hg : IsGrid room.Board) (hr0 : 0 ≤ req.Row) (hr3 : req.Row < 3)
    (hc0 : 0 ≤ req.Col) (hc3 : req.Col < 3) :
    ∃ s' reply, PlaceMoveBody s req order = some (s', reply) := by
  obtain ⟨c, hc⟩ := readCell_of_grid hg (toNat_lt_three hr0 hr3) (toNat_lt_three hc0 hc3)
  rw [← cellAt_eq hr0 hc0] at hc
  by_cases hempty : c = ""
  · subst hempty
    cases hover : room.IsGameOver with
    | true => exact ⟨_, _, PlaceMoveBody_over order hroom hc hover⟩
    | false =>
      obtain ⟨board, -, -, hpm⟩ := PlaceMoveBody_accept order hroom hg hr0 hr3 hc0 hc3 hc hover
      exact ⟨_, _, hpm⟩
  · exact ⟨_, _, PlaceMoveBody_occupied order hroom hc hempty⟩

/-! ## The handler `PlaceMove` with its mutex calls -/

theorem exec_lock (l : Locks) (m : MutexId) :
    Locks.exec l [LockOp.lock m] =
      if m ∈ l.held then LockResult.fault (LockFault.blocked m) l
      else LockResult.returned ⟨m :: l.held⟩ := by
  simp only [Locks.exec]

/-- On an existing room whose mutex is locked, `PlaceMove` does not return: it
waits at `s.Mutex.Lock()` or at `room.Mutex.Lock()`, and the rooms are as they
were. -/
theorem PlaceMove_room_locked {l : Locks} {s : TicTacToeServer} {req : PlaceMoveRequest}
    {room : Room} (order : List String) (relocked : Bool)
    (hroom : s.Rooms.lookup req.RoomId = some room)
    (hheld : MutexId.room req.RoomId ∈ l.held) :
    PlaceMove l s req order relocked =
      if MutexId.server ∈ l.held then
        Outcome.fault (LockFault.blocked MutexId.server) l s
      else
        Outcome.fault (LockFault.blocked (MutexId.room req.RoomId))
          ⟨MutexId.server :: l.held⟩ s := by
  by_cases hserver : MutexId.server ∈ l.held
  · simp only [PlaceMove, exec_lock, hserver, if_true]
  · simp only [PlaceMove, exec_lock, hserver, if_false, hroom, List.mem_cons, hheld,
      or_true, if_true]

/-- On an existing room, `PlaceMove` run alone does not return a reply. -/
theorem PlaceMove_alone {l : Locks} {s : TicTacToeServer} {req : PlaceMoveRequest}
    {room : Room} (order : List String)
    (hroom : s.Rooms.lookup req.RoomId = some room)
    (l' : Locks) (s' : TicTacToeServer) (reply : Reply GameState) :
    PlaceMove l s req order false ≠ Outcome.returned l' s' reply := by
  by_cases hserver : MutexId.server ∈ l.held
  · simp [PlaceMove, exec_lock, hserver]
  · by_cases hheld : MutexId.room req.RoomId ∈ l.held
    · rw [PlaceMove_room_locked order false hroom hheld]
      simp [hserver]
    · cases hbody : PlaceMoveBody s req order with
      | none => simp [PlaceMove, exec_lock, hserver, hroom, hheld, hbody]
      | some res =>
        obtain ⟨s1, reply1⟩ := res
        simp [PlaceMove, exec_lock, hserver, hroom, hheld, hbody, PlaceMoveDeferred,
          Locks.exec]

/-- When `PlaceMove` returns, the rooms and the reply are those of its data path,
and the mutex of an existing room is left locked. -/
theorem PlaceMove_returned {l l' : Locks} {s s' : TicTacToeServer}
    {req : PlaceMoveRequest} {order : List String} {relocked : Bool}
    {reply : Reply GameState}
    (h : PlaceMove l s req order relocked = Outcome.returned l' s' reply) :
    PlaceMoveBody s req order = some (s', reply) ∧
      (∀ room, s.Rooms.lookup req.RoomId = some room →
        MutexId.room req.RoomId ∈ l'.held) := by
  by_cases hserver : MutexId.server ∈ l.held
  · simp [PlaceMove, exec_lock, hserver] at h
  · cases hroom : s.Rooms.lookup req.RoomId with
    | none =>
      simp only [PlaceMove, exec_lock, hserver, if_false, hroom, Locks.exec, List.mem_cons,
        true_or, if_true, Outcome.returned.injEq] at h
      obtain ⟨-, rfl, rfl⟩ := h
      exact ⟨PlaceMoveBody_notFound order hroom, fun room hr => by simp at hr⟩
    | some room =>
      by_cases hheld : MutexId.room req.RoomId ∈ l.held
      · rw [PlaceMove_room_locked order relocked hroom hheld] at h
        simp [hserver] at h
      · cases hbody : PlaceMoveBody s req order with
        | none => simp [PlaceMove, exec_lock, hserver, hroom, hheld, hbody] at h
        | some res =>
          obtain ⟨s1, reply1⟩ := res
          cases relocked with
          | false =>
            simp [PlaceMove, exec_lock, hserver, hroom, hheld, hbody, PlaceMoveDeferred,
              Locks.exec] at h
          | true =>
            simp [PlaceMove, exec_lock, hserver, hroom, hheld, hbody, PlaceMoveDeferred,
              Locks.exec] at h
            obtain ⟨rfl, rfl, rfl⟩ := h
            exact ⟨rfl, fun _ _ => by simp⟩

/-- An accepted move on a room with a 3x3 board: the cell was empty, the game in
progress, and the room after the write is `movedRoom`. -/
theorem PlaceMoveBody_ok {s s' : TicTacToeServer} {req : PlaceMoveRequest}
    {order : List String} {room : Room} {gs : GameState}
    (hroom : s.Rooms.lookup req.RoomId = some room) (hg : IsGrid room.Board)
    (h : PlaceMoveBody s req order = some (s', Reply.ok gs)) :
    ∃ board, writeCell room.Board req.Row.toNat req.Col.toNat
        (mapGet room.Players req.PlayerName) = some board ∧ IsGrid board ∧
      readCell room.Board req.Row.toNat req.Col.toNat = some "" ∧
      room.IsGameOver = false ∧
      s' = ⟨s.Rooms.insert req.RoomId (movedRoom room req.PlayerName order board)⟩ ∧
      gs = ⟨board, (movedRoom room req.PlayerName order board).IsGameOver,
        (movedRoom room req.PlayerName order board).Winner⟩ := by
  rcases PlaceMoveBody_inv h with ⟨-, msg, hmsg⟩ | ⟨room0, _, hroom0, hover, hcell, -, -, -, -⟩
  · exact absurd hmsg (by simp)
  · rw [hroom] at hroom0
    obtain rfl := Option.some.inj hroom0
    obtain ⟨hr0, hr3, hc0, hc3⟩ := cellAt_range hg hcell
    obtain ⟨board, hw, hg', hpm⟩ :=
      PlaceMoveBody_accept order hroom hg hr0 hr3 hc0 hc3 hcell hover
    rw [hpm] at h
    simp only [Option.some.injEq, Prod.mk.injEq, Reply.ok.injEq] at h
    rw [cellAt_eq hr0 hc0] at hcell
    exact ⟨board, hw, hg', hcell, hover, h.1.symm, h.2.symm⟩

/-- A call that stores no new room under `roomId` and is not a `JoinRoom` on that
room under `name` leaves a later state of the room with the same roster entry
for `name`. -/
theorem run_keeps_mark {s s1 : TicTacToeServer} {c : Call} {roomId name : String}
    {room : Room} (hc : c.run s = some s1) (hkeep : Call.keeps roomId c)
    (hjoin : c ≠ Call.join ⟨roomId, name⟩)
    (hroom : s.Rooms.lookup roomId = some room) :
    ∃ room1, s1.Rooms.lookup roomId = some room1 ∧ RoomLater room room1 ∧
      room1.Players.lookup name = room.Players.lookup name := by
  cases c with
  | create req roomID =>
    obtain ⟨room1, h1, h2⟩ := run_keeps hc hkeep hroom
    obtain rfl := Option.some.inj hc
    have hne : roomId ≠ roomID := fun h => hkeep h.symm
    simp only [CreateRoom] at h1
    rw [lookup_insert_cases, if_neg hne, hroom] at h1
    obtain rfl := Option.some.inj h1
    exact ⟨room, by simp only [CreateRoom]; rw [lookup_insert_cases, if_neg hne]; exact hroom,
      h2, rfl⟩
  | join req =>
    obtain rfl := Option.some.inj hc
    unfold JoinRoom
    split
    · exact ⟨room, hroom, roomLater_refl room, rfl⟩
    · rename_i room0 hroom0
      split
      · exact ⟨room, hroom, roomLater_refl room, rfl⟩
      · simp only [lookup_insert_cases]
        split
        · rename_i heq
          subst heq
          rw [hroom] at hroom0
          obtain rfl := Option.some.inj hroom0
          have hname : name ≠ req.PlayerName := by
            intro hn
            apply hjoin
            subst hn
            rfl
          exact ⟨_, rfl, ⟨keys_length_insert_ge _ _ _, fun h => ⟨h, rfl, rfl⟩⟩,
            AList.lookup_insert_ne hname⟩
        · exact ⟨room, hroom, roomLater_refl room, rfl⟩
  | move req order =>
    simp only [Call.run] at hc
    split at hc
    · cases hpm : PlaceMoveBody s req order with
      | none => simp [hpm] at hc
      | some res =>
        obtain ⟨s', reply⟩ := res
        simp only [hpm, Option.map_some', Option.some.injEq] at hc
        subst hc
        rcases PlaceMoveBody_inv hpm with ⟨rfl, -⟩ |
          ⟨room0, room', hroom0, hover, -, hpl, -, -, rfl⟩
        · exact ⟨room, hroom, roomLater_refl room, rfl⟩
        · simp only [lookup_insert_cases]
          split
          · rename_i heq
            subst heq
            rw [hroom] at hroom0
            obtain rfl := Option.some.inj hroom0
            refine ⟨_, rfl, ⟨by rw [hpl], fun h => ?_⟩, by rw [hpl]⟩
            rw [hover] at h
            exact absurd h (by decide)
          · exact ⟨room, hroom, roomLater_refl room, rfl⟩
    · simp at hc

/-- Calls none of which stores a new room under `roomId` or is a `JoinRoom` on that
room under `name` leave a later state of the room with the same roster entry
for `name`. -/
theorem runCalls_keeps_mark {calls : List Call} {s t : TicTacToeServer}
    {roomId name : String} {room : Room} (hrun : runCalls s calls = some t)
    (hkeep : ∀ c ∈ calls, Call.keeps roomId c ∧ c ≠ Call.join ⟨roomId, name⟩)
    (hroom : s.Rooms.lookup roomId = some room) :
    ∃ room', t.Rooms.lookup roomId = some room' ∧ RoomLater room room' ∧
      room'.Players.lookup name = room.Players.lookup name := by
  induction calls generalizing s room with
  | nil =>
    obtain rfl := Option.some.inj hrun
    exact ⟨room, hroom, roomLater_refl room, rfl⟩
  | cons c calls ih =>
    simp only [runCalls] at hrun
    split at hrun
    · simp at hrun
    · rename_i s1 hc
      obtain ⟨hk, hj⟩ := hkeep c (List.mem_cons_self _ _)
      obtain ⟨room1, hroom1, hl1, hm1⟩ := run_keeps_mark hc hk hj hroom
      obtain ⟨room', hroom', hl', hm'⟩ :=
        ih hrun (fun c' hc' => hkeep c' (List.mem_cons_of_mem _ hc')) hroom1
      exact ⟨room', hroom', roomLater_trans hl1 hl', hm'.trans hm1⟩

/-! ## The claims -/

/-- C1 fails on the code.  In the room created by Alice, Zed's move at (1,1) ends
the game.  Run alone, that call writes the outcome and then dies in the second
deferred `s.Mutex.Unlock()`; when another goroutine has locked `s.Mutex` in
between, it returns.  Both ways the mutex of the room stays locked, and a
later `PlaceMove` on the finished room, here Bob's on the empty cell (0,0),
waits for ever at `room.Mutex.Lock()`: it does not fail with "game is already
over". -/
theorem C1_finished_room_never_answers :
    PlaceMove Locks.free aliceAlone ⟨"r", "Zed", 1, 1⟩ ["Alice"] false =
      Outcome.fault (LockFault.unlockOfUnlocked MutexId.server) ⟨[MutexId.room "r"]⟩ zedWon ∧
    PlaceMove Locks.free aliceAlone ⟨"r", "Zed", 1, 1⟩ ["Alice"] true =
      Outcome.returned ⟨[MutexId.room "r"]⟩ zedWon
        (Reply.ok ⟨createEmptyBoard, true, "Zed"⟩) ∧
    zedWon.Rooms.lookup "r" = some zedWonRoom ∧
    zedWonRoom.IsGameOver = true ∧
    cellAt zedWonRoom.Board 0 0 = some "" ∧
    PlaceMove ⟨[MutexId.room "r"]⟩ zedWon ⟨"r", "Bob", 0, 0⟩ ["Alice"] false =
      Outcome.fault (LockFault.blocked (MutexId.room "r"))
        ⟨[MutexId.server, MutexId.room "r"]⟩ zedWon ∧
    PlaceMove ⟨[MutexId.room "r"]⟩ zedWon ⟨"r", "Bob", 0, 0⟩ ["Alice"] true =
      Outcome.fault (LockFault.blocked (MutexId.room "r"))
        ⟨[MutexId.server, MutexId.room "r"]⟩ zedWon :=
  ⟨rfl, rfl, rfl, rfl, rfl, rfl, rfl⟩

/-- C2 fails on the code.  In the room of Alice and Bob, Alice's move at (1,1)
writes "X"; run alone the call then dies in the second deferred
`s.Mutex.Unlock()`, and when another goroutine has locked `s.Mutex` in between
it returns.  Both ways the mutex of the room stays locked, and Bob's move on
the occupied cell (1,1) waits for ever at `room.Mutex.Lock()`: it does not
fail with "cell already occupied". -/
theorem C2_occupied_cell_never_answers :
    PlaceMove Locks.free aliceBob ⟨"r", "Alice", 1, 1⟩ ["Alice", "Bob"] false =
      Outcome.fault (LockFault.unlockOfUnlocked MutexId.server) ⟨[MutexId.room "r"]⟩
        aliceFirst ∧
    PlaceMove Locks.free aliceBob ⟨"r", "Alice", 1, 1⟩ ["Alice", "Bob"] true =
      Outcome.returned ⟨[MutexId.room "r"]⟩ aliceFirst
        (Reply.ok ⟨aliceFirstRoom.Board, false, ""⟩) ∧
    aliceFirst.Rooms.lookup "r" = some aliceFirstRoom ∧
    cellAt aliceFirstRoom.Board 1 1 = some "X" ∧
    PlaceMove ⟨[MutexId.room "r"]⟩ aliceFirst ⟨"r", "Bob", 1, 1⟩ ["Alice", "Bob"] false =
      Outcome.fault (LockFault.blocked (MutexId.room "r"))
        ⟨[MutexId.server, MutexId.room "r"]⟩ aliceFirst ∧
    PlaceMove ⟨[MutexId.room "r"]⟩ aliceFirst ⟨"r", "Bob", 1, 1⟩ ["Alice", "Bob"] true =
      Outcome.fault (LockFault.blocked (MutexId.room "r"))
        ⟨[MutexId.server, MutexId.room "r"]⟩ aliceFirst :=
  ⟨rfl, rfl, rfl, rfl, rfl, rfl⟩

/-- C3, as stated, fails.  In the room created by Alice, Zed's move at (1,1) ends
the game with Zed as winner while the roster has no entry for Zed (the call
returns when another goroutine has locked `s.Mutex` between its deferred
calls); `JoinRoom` under the name Zed then succeeds and gives Zed the mark
"O".  The room is won by Zed, the roster assigns "O" to Zed, and no line of
the board is of "O". -/
theorem C3_winner_mark_assigned_later :
    PlaceMove Locks.free aliceAlone ⟨"r", "Zed", 1, 1⟩ ["Alice"] true =
      Outcome.returned ⟨[MutexId.room "r"]⟩ zedWon
        (Reply.ok ⟨createEmptyBoard, true, "Zed"⟩) ∧
    zedWon.Rooms.lookup "r" = some zedWonRoom ∧
    zedWonRoom.Winner = "Zed" ∧ zedWonRoom.Players.lookup "Zed" = none ∧
    Locks.exec ⟨[MutexId.room "r"]⟩ JoinRoomLocks =
      LockResult.returned ⟨[MutexId.room "r"]⟩ ∧
    JoinRoom zedWon ⟨"r", "Zed"⟩ = (zedJoined, Reply.ok "Successfully joined the room!") ∧
    zedJoined.Rooms.lookup "r" = some zedJoinedRoom ∧
    zedJoinedRoom.IsGameOver = true ∧ zedJoinedRoom.Winner = "Zed" ∧
    zedJoinedRoom.Players.lookup "Zed" = some "O" ∧
    ¬ hasLine zedJoinedRoom.Board "O" :=
  ⟨rfl, rfl, rfl, rfl, by decide, rfl, rfl, rfl, rfl, rfl, by decide⟩

/-- C3 (amended): on a reachable server, when an accepted move of a participant
with a non-empty name has left the game over with that participant as winner,
then after any further calls, none of them a `JoinRoom` on that room under
the winner's name, the game of the room is over with the same winner and some
row, column or diagonal consists entirely of the mark the roster assigns to
the winner, the empty string standing for the mark of a name that is not in
the roster. -/
theorem winner_line_kept (s s1 t : TicTacToeServer) (req : PlaceMoveRequest)
    (order : List String) (gs : GameState) (room1 : Room) (calls : List Call)
    (hreach : Reachable s)
    (hcall : PlaceMoveBody s req order = some (s1, Reply.ok gs))
    (hroom1 : s1.Rooms.lookup req.RoomId = some room1)
    (hwon : room1.IsGameOver = true) (hwinner : room1.Winner = req.PlayerName)
    (hname : req.PlayerName ≠ "")
    (hkeep : ∀ c ∈ calls,
      Call.keeps req.RoomId c ∧ c ≠ Call.join ⟨req.RoomId, req.PlayerName⟩)
    (hrun : runCalls s1 calls = some t) :
    ∃ room', t.Rooms.lookup req.RoomId = some room' ∧
      room'.IsGameOver = true ∧ room'.Winner = req.PlayerName ∧
      hasLine room'.Board (mapGet room'.Players req.PlayerName) := by
  have hline : hasLine room1.Board (mapGet room1.Players req.PlayerName) := by
    rcases PlaceMoveBody_inv hcall with ⟨-, msg, hmsg⟩ | ⟨room, _, hroom, -, -, -, -, -, -⟩
    · exact absurd hmsg (by simp)
    · have hg := (serverInv_of_reachable hreach req.RoomId room hroom).grid
      obtain ⟨board, -, -, -, -, hs1, -⟩ := PlaceMoveBody_ok hroom hg hcall
      subst hs1
      rw [AList.lookup_insert] at hroom1
      obtain rfl := Option.some.inj hroom1
      by_cases hl : hasLine board (mapGet room.Players req.PlayerName)
      · exact hl
      · by_cases hf : isFull board
        · simp [movedRoom, hl, hf] at hwinner
          exact absurd hwinner.symm hname
        · simp [movedRoom, hl, hf] at hwon
  obtain ⟨room', hroom', ⟨-, hlater⟩, hmark⟩ := runCalls_keeps_mark hrun hkeep hroom1
  obtain ⟨hover', hboard, hwin'⟩ := hlater hwon
  refine ⟨room', hroom', hover', hwin'.trans hwinner, ?_⟩
  have hget : mapGet room'.Players req.PlayerName = mapGet room1.Players req.PlayerName := by
    simp only [mapGet, hmark]
  rw [hget, hboard]
  exact hline

/-- C3 (amended) in the room created by Alice: Zed's move at (1,1) ends the game
with Zed as winner, then Bob joins; the game is still won by Zed, who is not
in the roster, and the board has a line of empty cells. -/
theorem winner_line_kept_witness :
    ∃ room', (JoinRoom zedWon ⟨"r", "Bob"⟩).1.Rooms.lookup "r" = some room' ∧
      room'.IsGameOver = true ∧ room'.Winner = "Zed" ∧
      hasLine room'.Board (mapGet room'.Players "Zed") :=
  winner_line_kept aliceAlone zedWon (JoinRoom zedWon ⟨"r", "Bob"⟩).1
    ⟨"r", "Zed", 1, 1⟩ ["Alice"] ⟨createEmptyBoard, true, "Zed"⟩ zedWonRoom
    [Call.join ⟨"r", "Bob"⟩] ⟨[Call.create ⟨"Alice"⟩ "r"], rfl⟩ rfl rfl rfl rfl
    (by decide) (by simp [Call.keeps]) rfl

/-- C4, as stated, fails: in the room created by Alice a `JoinRoom` under the name
Alice succeeds, and a later `JoinRoom` of Bob succeeds too. -/
theorem C4_second_join_succeeds :
    (JoinRoom aliceAlone ⟨"r", "Alice"⟩).2 = Reply.ok "Successfully joined the room!" ∧
    (JoinRoom (JoinRoom aliceAlone ⟨"r", "Alice"⟩).1 ⟨"r", "Bob"⟩).2 =
      Reply.ok "Successfully joined the room!" :=
  ⟨rfl, rfl⟩

/-- C4 (amended): in a reachable server, after a `JoinRoom` on a room has succeeded
with a name that was not yet in the roster, every later `JoinRoom` on that
room fails with "room is full" and leaves the server unchanged. -/
theorem JoinRoom_full_after_join (s t : TicTacToeServer) (room : Room)
    (req : JoinRoomRequest) (calls : List Call) (name : String)
    (hreach : Reachable s) (hroom : s.Rooms.lookup req.RoomId = some room)
    (hnew : req.PlayerName ∉ room.Players.keys)
    (hjoin : (JoinRoom s req).2 = Reply.ok "Successfully joined the room!")
    (hkeep : ∀ c ∈ calls, Call.keeps req.RoomId c)
    (hrun : runCalls (JoinRoom s req).1 calls = some t) :
    JoinRoom t ⟨req.RoomId, name⟩ = (t, Reply.error "room is full") := by
  have hpos := (serverInv_of_reachable hreach req.RoomId room hroom).roster_pos
  have hjoined : ∃ room1, (JoinRoom s req).1.Rooms.lookup req.RoomId = some room1 ∧
      2 ≤ room1.Players.keys.length := by
    unfold JoinRoom at hjoin ⊢
    simp only [hroom] at hjoin ⊢
    split
    · rename_i hfull
      rw [if_pos hfull] at hjoin
      exact absurd hjoin (by simp)
    · refine ⟨_, AList.lookup_insert _, ?_⟩
      simp only
      rw [keys_length_insert_new _ _ _ hnew]
      omega
  obtain ⟨room1, hroom1, hlen1⟩ := hjoined
  obtain ⟨room', hroom', hlen', -⟩ := runCalls_keeps hrun hkeep hroom1
  have hfull : room'.Players.keys.length ≥ 2 := hlen1.trans hlen'
  simp [JoinRoom, hroom', hfull]

/-- C4 (amended) at the room created by Alice: Bob joins, Dave is refused, and
Carol is refused too. -/
theorem JoinRoom_full_after_join_witness :
    JoinRoom (JoinRoom aliceAlone ⟨"r", "Bob"⟩).1 ⟨"r", "Carol"⟩ =
      ((JoinRoom aliceAlone ⟨"r", "Bob"⟩).1, Reply.error "room is full") :=
  JoinRoom_full_after_join aliceAlone (JoinRoom aliceAlone ⟨"r", "Bob"⟩).1 aliceAloneRoom
    ⟨"r", "Bob"⟩ [Call.join ⟨"r", "Dave"⟩] "Carol"
    ⟨[Call.create ⟨"Alice"⟩ "r"], rfl⟩ rfl (by decide) rfl (by simp [Call.keeps]) rfl

/-- C5: in every reachable server every room has one or two roster entries. -/
theorem roster_size (s : TicTacToeServer) (roomId : String) (room : Room)
    (hreach : Reachable s) (hroom : s.Rooms.lookup roomId = some room) :
    1 ≤ room.Players.keys.length ∧ room.Players.keys.length ≤ 2 :=
  ⟨(serverInv_of_reachable hreach roomId room hroom).roster_pos,
    (serverInv_of_reachable hreach roomId room hroom).roster_le⟩

/-- C5 at the room of Alice and Bob. -/
theorem roster_size_witness :
    1 ≤ aliceBobRoom.Players.keys.length ∧ aliceBobRoom.Players.keys.length ≤ 2 :=
  roster_size aliceBob "r" aliceBobRoom
    ⟨[Call.create ⟨"Alice"⟩ "r", Call.join ⟨"r", "Bob"⟩], rfl⟩ rfl

/-- C6: on a 3x3 board `checkWin` returns, and it returns true exactly when one of
the three rows, three columns or two diagonals has its three cells equal to
the mark. -/
theorem checkWin_iff_line (board : Board) (symbol : String) (hg : IsGrid board) :
    ∃ r, checkWin board symbol = some r ∧ (r = true ↔ hasLine board symbol) :=
  ⟨decide (hasLine board symbol), checkWin_of_grid hg symbol, decide_eq_true_iff⟩

/-- C6 on a board whose anti-diagonal is of "X". -/
theorem checkWin_iff_line_witness :
    ∃ r, checkWin [["O", "O", "X"], ["", "X", ""], ["X", "", "O"]] "X" = some r ∧
      (r = true ↔ hasLine [["O", "O", "X"], ["", "X", ""], ["X", "", "O"]] "X") :=
  checkWin_iff_line [["O", "O", "X"], ["", "X", ""], ["X", "", "O"]] "X" (by decide)

/-- C7: a successful `PlaceMove` sets exactly the target cell.  When the data path
of `PlaceMove`, for a roster member on a room with a 3x3 board, reaches the
return of a success reply, the room was in progress and the target cell
empty; in the room after the call the target cell holds the member's mark and
every other cell reads as before, and the reply carries the board and outcome
of the room after the call. -/
theorem accepted_move_sets_cell (s s' : TicTacToeServer) (req : PlaceMoveRequest)
    (order : List String) (room : Room) (mark : String) (gs : GameState)
    (hroom : s.Rooms.lookup req.RoomId = some room) (hgrid : IsGrid room.Board)
    (hmem : room.Players.lookup req.PlayerName = some mark)
    (hcall : PlaceMoveBody s req order = some (s', Reply.ok gs)) :
    room.IsGameOver = false ∧
    readCell room.Board req.Row.toNat req.Col.toNat = some "" ∧
    ∃ room', s'.Rooms.lookup req.RoomId = some room' ∧ IsGrid room'.Board ∧
      readCell room'.Board req.Row.toNat req.Col.toNat = some mark ∧
      (∀ i j, ¬ (i = req.Row.toNat ∧ j = req.Col.toNat) →
        readCell room'.Board i j = readCell room.Board i j) ∧
      gs.Board = room'.Board ∧ gs.IsGameOver = room'.IsGameOver ∧
      gs.Winner = room'.Winner := by
  obtain ⟨board, hw, hg', hempty, hover, rfl, rfl⟩ := PlaceMoveBody_ok hroom hgrid hcall
  have hmark : mapGet room.Players req.PlayerName = mark := by simp [mapGet, hmem]
  rw [hmark] at hw
  refine ⟨hover, hempty, _, AList.lookup_insert _, hg', ?_, ?_, rfl, rfl, rfl⟩
  · simp [movedRoom, readCell_writeCell hw]
  · intro i j hij
    simp [movedRoom, readCell_writeCell hw, hij]

/-- C7 at the room of Alice and Bob: Alice plays the centre. -/
theorem accepted_move_sets_cell_witness :
    aliceBobRoom.IsGameOver = false ∧
    readCell aliceBobRoom.Board 1 1 = some "" ∧
    ∃ room', aliceFirst.Rooms.lookup "r" = some room' ∧ IsGrid room'.Board ∧
      readCell room'.Board 1 1 = some "X" ∧
      (∀ i j, ¬ (i = 1 ∧ j = 1) →
        readCell room'.Board i j = readCell aliceBobRoom.Board i j) ∧
      aliceFirstRoom.Board = room'.Board ∧ false = room'.IsGameOver ∧
      "" = room'.Winner :=
  accepted_move_sets_cell aliceBob aliceFirst ⟨"r", "Alice", 1, 1⟩ ["Alice", "Bob"]
    aliceBobRoom "X" ⟨aliceFirstRoom.Board, false, ""⟩ rfl (by decide) rfl rfl

/-- C8 fails on the code.  In the room created by Alice and joined by Bob, Alice's
first move at (0,0) writes "X"; run alone the call then dies in the second
deferred `s.Mutex.Unlock()`, and when another goroutine has locked `s.Mutex`
in between it returns with the game not over.  Both ways the mutex of the room
stays locked and Alice's second move, at (0,1), waits for ever at
`room.Mutex.Lock()`: the board never gets a second mark, the third move is
never made and the game is never won by Alice. -/
theorem C8_scenario_stops_at_first_move :
    PlaceMove Locks.free aliceBob ⟨"r", "Alice", 0, 0⟩ ["Bob", "Alice"] false =
      Outcome.fault (LockFault.unlockOfUnlocked MutexId.server) ⟨[MutexId.room "r"]⟩
        aliceOpened ∧
    PlaceMove Locks.free aliceBob ⟨"r", "Alice", 0, 0⟩ ["Bob", "Alice"] true =
      Outcome.returned ⟨[MutexId.room "r"]⟩ aliceOpened
        (Reply.ok ⟨aliceOpenedRoom.Board, false, ""⟩) ∧
    aliceOpened.Rooms.lookup "r" = some aliceOpenedRoom ∧
    aliceOpenedRoom.Board = [["X", "", ""], ["", "", ""], ["", "", ""]] ∧
    aliceOpenedRoom.IsGameOver = false ∧
    PlaceMove ⟨[MutexId.room "r"]⟩ aliceOpened ⟨"r", "Alice", 0, 1⟩ ["Bob", "Alice"] false =
      Outcome.fault (LockFault.blocked (MutexId.room "r"))
        ⟨[MutexId.server, MutexId.room "r"]⟩ aliceOpened ∧
    PlaceMove ⟨[MutexId.room "r"]⟩ aliceOpened ⟨"r", "Alice", 0, 1⟩ ["Bob", "Alice"] true =
      Outcome.fault (LockFault.blocked (MutexId.room "r"))
        ⟨[MutexId.server, MutexId.room "r"]⟩ aliceOpened :=
  ⟨rfl, rfl, rfl, rfl, rfl, rfl, rfl⟩

/-- C10, as stated, fails.  In the room of Alice and Bob the turn is Alice's.  Bob's
move at (0,0) is accepted, for both orders of the range loop, and the turn in
the room it leaves is still Alice's, the member who held it before the move.
The call returns that success reply when another goroutine has locked
`s.Mutex` between its two deferred calls. -/
theorem C10_turn_kept_by_holder :
    aliceBob.Rooms.lookup "r" = some aliceBobRoom ∧
    aliceBobRoom.CurrentTurn = "Alice" ∧
    aliceBobRoom.Players.keys = ["Bob", "Alice"] ∧
    PlaceMoveBody aliceBob ⟨"r", "Bob", 0, 0⟩ ["Bob", "Alice"] =
      some (bobFirst, Reply.ok ⟨bobFirstRoom.Board, false, ""⟩) ∧
    PlaceMoveBody aliceBob ⟨"r", "Bob", 0, 0⟩ ["Alice", "Bob"] =
      some (bobFirst, Reply.ok ⟨bobFirstRoom.Board, false, ""⟩) ∧
    PlaceMove Locks.free aliceBob ⟨"r", "Bob", 0, 0⟩ ["Bob", "Alice"] true =
      Outcome.returned ⟨[MutexId.room "r"]⟩ bobFirst
        (Reply.ok ⟨bobFirstRoom.Board, false, ""⟩) ∧
    bobFirst.Rooms.lookup "r" = some bobFirstRoom ∧
    bobFirstRoom.CurrentTurn = "Alice" :=
  ⟨rfl, rfl, rfl, rfl, rfl, rfl, rfl, rfl⟩

/-- C10 (amended): in a room with two roster members, after each accepted move of a
roster member the turn is the roster member other than the mover, whichever
order the range loop takes.  So the turn passes to the other member when the
mover held it, and stays with its holder when the other roster member made
the move. -/
theorem turn_after_move (s s' : TicTacToeServer) (req : PlaceMoveRequest)
    (order : List String) (room : Room) (gs : GameState)
    (hroom : s.Rooms.lookup req.RoomId = some room)
    (htwo : room.Players.keys.length = 2)
    (hmem : req.PlayerName ∈ room.Players.keys)
    (horder : order.Perm room.Players.keys)
    (hcall : PlaceMoveBody s req order = some (s', Reply.ok gs)) :
    ∃ room', s'.Rooms.lookup req.RoomId = some room' ∧
      room'.Players = room.Players ∧
      room'.CurrentTurn ∈ room.Players.keys ∧
      room'.CurrentTurn ≠ req.PlayerName ∧
      (∀ p ∈ room.Players.keys, p ≠ req.PlayerName → room'.CurrentTurn = p) ∧
      (room.CurrentTurn = req.PlayerName → room'.CurrentTurn ≠ room.CurrentTurn) ∧
      (room.CurrentTurn ∈ room.Players.keys → room.CurrentTurn ≠ req.PlayerName →
        room'.CurrentTurn = room.CurrentTurn) := by
  rcases PlaceMoveBody_inv hcall with ⟨-, msg, hmsg⟩ |
    ⟨room0, room', hroom0, -, -, hpl, hturn, -, rfl⟩
  · exact absurd hmsg (by simp)
  · rw [hroom] at hroom0
    obtain rfl := Option.some.inj hroom0
    obtain ⟨hex, huniq⟩ := two_keys_other room.Players.keys_nodup htwo hmem
    have hex' : ∃ p ∈ order, p ≠ req.PlayerName := by
      obtain ⟨p, hp, hne⟩ := hex
      exact ⟨p, horder.mem_iff.mpr hp, hne⟩
    obtain ⟨h1, h2⟩ := switchTurn_other room.CurrentTurn hex'
    rw [← hturn] at h1 h2
    have h1' : room'.CurrentTurn ∈ room.Players.keys := horder.mem_iff.mp h1
    refine ⟨room', AList.lookup_insert _, hpl, h1', h2, ?_, ?_, ?_⟩
    · intro p hp hne
      exact huniq _ h1' _ hp h2 hne
    · intro hcur
      rw [hcur]
      exact h2
    · intro hin hne
      exact huniq _ h1' _ hin h2 hne

/-- C10 (amended) at the room of Alice and Bob: after Alice's move at the centre
the turn is Bob's. -/
theorem turn_after_move_witness :
    ∃ room', aliceFirst.Rooms.lookup "r" = some room' ∧
      room'.Players = aliceBobRoom.Players ∧
      room'.CurrentTurn ∈ aliceBobRoom.Players.keys ∧
      room'.CurrentTurn ≠ "Alice" ∧
      (∀ p ∈ aliceBobRoom.Players.keys, p ≠ "Alice" → room'.CurrentTurn = p) ∧
      (aliceBobRoom.CurrentTurn = "Alice" →
        room'.CurrentTurn ≠ aliceBobRoom.CurrentTurn) ∧
      (aliceBobRoom.CurrentTurn ∈ aliceBobRoom.Players.keys →
        aliceBobRoom.CurrentTurn ≠ "Alice" →
        room'.CurrentTurn = aliceBobRoom.CurrentTurn) :=
  turn_after_move aliceBob aliceFirst ⟨"r", "Alice", 1, 1⟩ ["Alice", "Bob"] aliceBobRoom
    ⟨aliceFirstRoom.Board, false, ""⟩ rfl rfl (by decide) (by decide) rfl

/-- C11, as stated, fails.  In the room of Alice and Bob the turn is Alice's.  Zed's
move at (1,1), the range loop visiting Bob first, is accepted and ends the
game; the turn in the room it leaves is Bob's, not Alice's.  The call returns
that success reply when another goroutine has locked `s.Mutex` between its two
deferred calls. -/
theorem C11_turn_moves_on_game_end :
    aliceBob.Rooms.lookup "r" = some aliceBobRoom ∧
    aliceBobRoom.CurrentTurn = "Alice" ∧
    aliceBobRoom.Players.keys = ["Bob", "Alice"] ∧
    PlaceMoveBody aliceBob ⟨"r", "Zed", 1, 1⟩ ["Bob", "Alice"] =
      some (zedEnds, Reply.ok ⟨createEmptyBoard, true, "Zed"⟩) ∧
    PlaceMove Locks.free aliceBob ⟨"r", "Zed", 1, 1⟩ ["Bob", "Alice"] true =
      Outcome.returned ⟨[MutexId.room "r"]⟩ zedEnds
        (Reply.ok ⟨createEmptyBoard, true, "Zed"⟩) ∧
    zedEnds.Rooms.lookup "r" = some zedEndsRoom ∧
    zedEndsRoom.IsGameOver = true ∧
    zedEndsRoom.CurrentTurn = "Bob" :=
  ⟨rfl, rfl, rfl, rfl, rfl, rfl, rfl, rfl⟩

/-- C11 (amended): `PlaceMove` sets the turn after every accepted move, whether the
move leaves the game in progress or ends it.  When the roster has a member
other than the mover, the turn after an accepted move is a roster member other
than the mover; it is the other roster member when a roster member of a
two-member room moved, and it differs from the turn before the call when the
mover held the turn. -/
theorem turn_set_after_every_move (s s' : TicTacToeServer) (req : PlaceMoveRequest)
    (order : List String) (room : Room) (gs : GameState)
    (hroom : s.Rooms.lookup req.RoomId = some room)
    (hother : ∃ p ∈ room.Players.keys, p ≠ req.PlayerName)
    (horder : order.Perm room.Players.keys)
    (hcall : PlaceMoveBody s req order = some (s', Reply.ok gs)) :
    ∃ room', s'.Rooms.lookup req.RoomId = some room' ∧
      room'.IsGameOver = gs.IsGameOver ∧
      room'.CurrentTurn ∈ room.Players.keys ∧
      room'.CurrentTurn ≠ req.PlayerName ∧
      (room.Players.keys.length = 2 → req.PlayerName ∈ room.Players.keys →
        ∀ p ∈ room.Players.keys, p ≠ req.PlayerName → room'.CurrentTurn = p) ∧
      (room.CurrentTurn = req.PlayerName → room'.CurrentTurn ≠ room.CurrentTurn) := by
  rcases PlaceMoveBody_inv hcall with ⟨-, msg, hmsg⟩ |
    ⟨room0, room', hroom0, -, -, -, hturn, hreply, rfl⟩
  · exact absurd hmsg (by simp)
  · rw [hroom] at hroom0
    obtain rfl := Option.some.inj hroom0
    have hex' : ∃ p ∈ order, p ≠ req.PlayerName := by
      obtain ⟨p, hp, hne⟩ := hother
      exact ⟨p, horder.mem_iff.mpr hp, hne⟩
    obtain ⟨h1, h2⟩ := switchTurn_other room.CurrentTurn hex'
    rw [← hturn] at h1 h2
    have h1' : room'.CurrentTurn ∈ room.Players.keys := horder.mem_iff.mp h1
    have hgs : gs = ⟨room'.Board, room'.IsGameOver, room'.Winner⟩ := Reply.ok.inj hreply
    refine ⟨room', AList.lookup_insert _, by rw [hgs], h1', h2, ?_, ?_⟩
    · intro htwo hmem p hp hne
      exact (two_keys_other room.Players.keys_nodup htwo hmem).2 _ h1' _ hp h2 hne
    · intro hcur
      rw [hcur]
      exact h2

/-- C11 (amended) at Zed's move in the room of Alice and Bob, which ends the game:
the turn after it is a roster member other than Zed. -/
theorem turn_set_after_every_move_witness :
    ∃ room', zedEnds.Rooms.lookup "r" = some room' ∧
      room'.IsGameOver = true ∧
      room'.CurrentTurn ∈ aliceBobRoom.Players.keys ∧
      room'.CurrentTurn ≠ "Zed" ∧
      (aliceBobRoom.Players.keys.length = 2 → "Zed" ∈ aliceBobRoom.Players.keys →
        ∀ p ∈ aliceBobRoom.Players.keys, p ≠ "Zed" → room'.CurrentTurn = p) ∧
      (aliceBobRoom.CurrentTurn = "Zed" →
        room'.CurrentTurn ≠ aliceBobRoom.CurrentTurn) :=
  turn_set_after_every_move aliceBob zedEnds ⟨"r", "Zed", 1, 1⟩ ["Bob", "Alice"]
    aliceBobRoom ⟨createEmptyBoard, true, "Zed"⟩ rfl ⟨"Bob", by decide, by decide⟩
    (by decide) rfl

/-- C12: the outcome of a room never goes back.  When the game of a room is over,
then after `CreateRoom` under another identifier, after `JoinRoom`, after a
run of the data path of `PlaceMove`, and after an iteration of `StreamGameState`,
the game of that room is still over with the same winner. -/
theorem outcome_never_reverts (s : TicTacToeServer) (roomId : String) (room : Room)
    (hroom : s.Rooms.lookup roomId = some room) (hover : room.IsGameOver = true) :
    (∀ creq roomID, roomID ≠ roomId →
      ∃ room', (CreateRoom s creq roomID).1.Rooms.lookup roomId = some room' ∧
        room'.IsGameOver = true ∧ room'.Winner = room.Winner) ∧
    (∀ jreq,
      ∃ room', (JoinRoom s jreq).1.Rooms.lookup roomId = some room' ∧
        room'.IsGameOver = true ∧ room'.Winner = room.Winner) ∧
    (∀ req order s' reply, PlaceMoveBody s req order = some (s', reply) →
      ∃ room', s'.Rooms.lookup roomId = some room' ∧
        room'.IsGameOver = true ∧ room'.Winner = room.Winner) ∧
    (∀ roomID,
      ∃ room', (StreamGameStateStep s roomID).1.Rooms.lookup roomId = some room' ∧
        room'.IsGameOver = true ∧ room'.Winner = room.Winner) := by
  refine ⟨?_, ?_, ?_, ?_⟩
  · intro creq roomID hne
    have hrun : (Call.create creq roomID).run s = some (CreateRoom s creq roomID).1 := rfl
    obtain ⟨room', hroom', -, hl⟩ := run_keeps hrun hne hroom
    exact ⟨room', hroom', (hl hover).1, (hl hover).2.2⟩
  · intro jreq
    have hrun : (Call.join jreq).run s = some (JoinRoom s jreq).1 := rfl
    obtain ⟨room', hroom', -, hl⟩ := run_keeps hrun trivial hroom
    exact ⟨room', hroom', (hl hover).1, (hl hover).2.2⟩
  · intro req order s' reply hcall
    obtain ⟨room', hroom', -, hl⟩ := PlaceMoveBody_later hcall hroom
    exact ⟨room', hroom', (hl hover).1, (hl hover).2.2⟩
  · intro roomID
    refine ⟨room, ?_, hover, rfl⟩
    unfold StreamGameStateStep
    split <;> exact hroom

/-- C12 at the room that Alice has won: Carol's `CreateRoom`, Carol's `JoinRoom`,
Bob's `PlaceMove` and a stream iteration leave the game over, won by Alice. -/
theorem outcome_never_reverts_witness :
    (∃ room', (CreateRoom aliceWon ⟨"Carol"⟩ "q").1.Rooms.lookup "r" = some room' ∧
      room'.IsGameOver = true ∧ room'.Winner = aliceWonRoom.Winner) ∧
    (∃ room', (JoinRoom aliceWon ⟨"r", "Carol"⟩).1.Rooms.lookup "r" = some room' ∧
      room'.IsGameOver = true ∧ room'.Winner = aliceWonRoom.Winner) ∧
    (∃ room', aliceWon.Rooms.lookup "r" = some room' ∧
      room'.IsGameOver = true ∧ room'.Winner = aliceWonRoom.Winner) ∧
    (∃ room', (StreamGameStateStep aliceWon "r").1.Rooms.lookup "r" = some room' ∧
      room'.IsGameOver = true ∧ room'.Winner = aliceWonRoom.Winner) :=
  ⟨(outcome_never_reverts aliceWon "r" aliceWonRoom rfl rfl).1 ⟨"Carol"⟩ "q" (by decide),
    (outcome_never_reverts aliceWon "r" aliceWonRoom rfl rfl).2.1 ⟨"r", "Carol"⟩,
    (outcome_never_reverts aliceWon "r" aliceWonRoom rfl rfl).2.2.1 ⟨"r", "Bob", 1, 1⟩
      ["Bob", "Alice"] aliceWon (Reply.error "game is already over") rfl,
    (outcome_never_reverts aliceWon "r" aliceWonRoom rfl rfl).2.2.2 "r"⟩

/-- C13: failure is atomic.  When `JoinRoom` returns an error, the error is "room
not found" or "room is full" and the server after the call is the server
before it; when `PlaceMove` reaches an error return, the error is "room not found",
"cell already occupied" or "game is already over" and the server after the
call is the server before it. -/
theorem failure_atomic (s : TicTacToeServer) (jreq : JoinRoomRequest)
    (req : PlaceMoveRequest) (order : List String) :
    (∀ msg, (JoinRoom s jreq).2 = Reply.error msg →
      (JoinRoom s jreq).1 = s ∧ (msg = "room not found" ∨ msg = "room is full")) ∧
    (∀ s' msg, PlaceMoveBody s req order = some (s', Reply.error msg) →
      s' = s ∧ (msg = "room not found" ∨ msg = "cell already occupied" ∨
        msg = "game is already over")) := by
  constructor
  · intro msg h
    unfold JoinRoom at h ⊢
    split
    · rename_i hnone
      simp only [hnone, Reply.error.injEq] at h
      exact ⟨rfl, Or.inl h.symm⟩
    · rename_i room hroom
      simp only [hroom] at h
      split
      · rename_i hfull
        rw [if_pos hfull] at h
        simp only [Reply.error.injEq] at h
        exact ⟨rfl, Or.inr h.symm⟩
      · rename_i hfull
        rw [if_neg hfull] at h
        exact absurd h (by simp)
  · intro s' msg h
    have hs : s' = s := by
      rcases PlaceMoveBody_inv h with ⟨hs, -⟩ | ⟨_, _, -, -, -, -, -, hreply, -⟩
      · exact hs
      · exact absurd hreply (by simp)
    refine ⟨hs, ?_⟩
    unfold PlaceMoveBody at h
    split at h
    · simp only [Option.some.injEq, Prod.mk.injEq, Reply.error.injEq] at h
      exact Or.inl h.2.symm
    · split at h
      · simp at h
      · split at h
        · simp only [Option.some.injEq, Prod.mk.injEq, Reply.error.injEq] at h
          exact Or.inr (Or.inl h.2.symm)
        · split at h
          · simp only [Option.some.injEq, Prod.mk.injEq, Reply.error.injEq] at h
            exact Or.inr (Or.inr h.2.symm)
          · simp only [] at h
            split at h
            · simp at h
            · split at h
              · simp at h
              · split at h
                · simp at h
                · simp at h

/-- C13 at the room that Alice has won: Carol's `JoinRoom` fails with "room is
full", Bob's `PlaceMove` on (1,1) reaches the return of "game is already over", and the
server is as it was. -/
theorem failure_atomic_witness :
    ((JoinRoom aliceWon ⟨"r", "Carol"⟩).1 = aliceWon ∧
      (("room is full" : String) = "room not found" ∨
        ("room is full" : String) = "room is full")) ∧
    (aliceWon = aliceWon ∧
      (("game is already over" : String) = "room not found" ∨
        ("game is already over" : String) = "cell already occupied" ∨
        ("game is already over" : String) = "game is already over")) :=
  ⟨(failure_atomic aliceWon ⟨"r", "Carol"⟩ ⟨"r", "Bob", 1, 1⟩ ["Bob", "Alice"]).1
      "room is full" rfl,
    (failure_atomic aliceWon ⟨"r", "Carol"⟩ ⟨"r", "Bob", 1, 1⟩ ["Bob", "Alice"]).2
      aliceWon "game is already over" rfl⟩

/-- C14, as stated, fails: in the room created by Alice, whose roster is Alice
with "X", `JoinRoom` under the name Alice succeeds and the roster after it is
Alice with "O": the mark of the existing participant has not stayed "X". -/
theorem C14_join_overwrites_mark :
    aliceAlone.Rooms.lookup "r" = some aliceAloneRoom ∧
    aliceAloneRoom.Players.keys = ["Alice"] ∧
    aliceAloneRoom.Players.lookup "Alice" = some "X" ∧
    JoinRoom aliceAlone ⟨"r", "Alice"⟩ =
      (⟨aliceAlone.Rooms.insert "r"
          { aliceAloneRoom with Players := (∅ : StrMap String).insert "Alice" "O" }⟩,
        Reply.ok "Successfully joined the room!") :=
  ⟨rfl, rfl, rfl, rfl⟩

/-- C14 (amended): on a reachable server `JoinRoom` fails with "room not found"
exactly when the identifier is not in the registry, fails with "room is full"
exactly when the room exists and its roster does not have exactly one entry,
and otherwise succeeds: the roster then gives the participant the mark "O",
the entries under every other name, the turn, the board and the outcome are
unchanged, and the other rooms are untouched. -/
theorem JoinRoom_cases (s : TicTacToeServer) (req : JoinRoomRequest)
    (hreach : Reachable s) :
    ((JoinRoom s req).2 = Reply.error "room not found" ↔
      s.Rooms.lookup req.RoomId = none) ∧
    ((JoinRoom s req).2 = Reply.error "room is full" ↔
      ∃ room, s.Rooms.lookup req.RoomId = some room ∧ room.Players.keys.length ≠ 1) ∧
    (∀ room, s.Rooms.lookup req.RoomId = some room → room.Players.keys.length = 1 →
      ∃ room', JoinRoom s req =
          (⟨s.Rooms.insert req.RoomId room'⟩, Reply.ok "Successfully joined the room!") ∧
        room'.Players.lookup req.PlayerName = some "O" ∧
        (∀ name, name ≠ req.PlayerName →
          room'.Players.lookup name = room.Players.lookup name) ∧
        room'.CurrentTurn = room.CurrentTurn ∧ room'.Board = room.Board ∧
        room'.IsGameOver = room.IsGameOver ∧ room'.Winner = room.Winner) := by
  have hinv := serverInv_of_reachable hreach
  refine ⟨?_, ?_, ?_⟩
  · constructor
    · intro h
      unfold JoinRoom at h
      split at h
      · assumption
      · split at h
        · exact absurd h (by simp)
        · exact absurd h (by simp)
    · intro h
      simp [JoinRoom, h]
  · constructor
    · intro h
      unfold JoinRoom at h
      split at h
      · exact absurd h (by simp)
      · rename_i room hroom
        split at h
        · rename_i hfull
          exact ⟨room, hroom, by omega⟩
        · exact absurd h (by simp)
    · rintro ⟨room, hroom, hlen⟩
      have hpos := (hinv req.RoomId room hroom).roster_pos
      have hfull : room.Players.keys.length ≥ 2 := by omega
      simp [JoinRoom, hroom, hfull]
  · intro room hroom hlen
    have hnot : ¬ room.Players.keys.length ≥ 2 := by omega
    refine ⟨{ room with Players := room.Players.insert req.PlayerName "O" }, ?_,
      AList.lookup_insert _, ?_, rfl, rfl, rfl, rfl⟩
    · simp [JoinRoom, hroom, hnot]
    · intro name hne
      exact AList.lookup_insert_ne hne

/-- C14 (amended) at the room created by Alice: Bob joins. -/
theorem JoinRoom_cases_witness :
    ((JoinRoom aliceAlone ⟨"r", "Bob"⟩).2 = Reply.error "room not found" ↔
      aliceAlone.Rooms.lookup "r" = none) ∧
    ((JoinRoom aliceAlone ⟨"r", "Bob"⟩).2 = Reply.error "room is full" ↔
      ∃ room, aliceAlone.Rooms.lookup "r" = some room ∧ room.Players.keys.length ≠ 1) ∧
    (∀ room, aliceAlone.Rooms.lookup "r" = some room → room.Players.keys.length = 1 →
      ∃ room', JoinRoom aliceAlone ⟨"r", "Bob"⟩ =
          (⟨aliceAlone.Rooms.insert "r" room'⟩, Reply.ok "Successfully joined the room!") ∧
        room'.Players.lookup "Bob" = some "O" ∧
        (∀ name, name ≠ "Bob" → room'.Players.lookup name = room.Players.lookup name) ∧
        room'.CurrentTurn = room.CurrentTurn ∧ room'.Board = room.Board ∧
        room'.IsGameOver = room.IsGameOver ∧ room'.Winner = room.Winner) :=
  JoinRoom_cases aliceAlone ⟨"r", "Bob"⟩ ⟨[Call.create ⟨"Alice"⟩ "r"], rfl⟩

/-- C15, as stated, fails: Alice's room is stored under the identifier that
`generateRoomID` returns when every draw is 0, and holds her move; when the
draws of Carol's `CreateRoom` are 0 again, the call succeeds and the registry
maps the identifier to Carol's new room: Alice's room has been replaced. -/
theorem C15_collision_replaces_room :
    firstId = "aaaaaaaa" ∧
    aliceGenerated.Rooms.lookup firstId = some aliceGeneratedRoom ∧
    (CreateRoom aliceGenerated ⟨"Carol"⟩ (generateRoomID fun _ => 0)).2 =
      Reply.ok "aaaaaaaa" ∧
    (CreateRoom aliceGenerated ⟨"Carol"⟩ (generateRoomID fun _ => 0)).1.Rooms.lookup
      firstId = some carolRoom ∧
    aliceGeneratedRoom.Board ≠ carolRoom.Board :=
  ⟨by decide, rfl, rfl, rfl, by decide⟩

/-- C15 (amended): `CreateRoom` never fails and returns the identifier; afterwards
the registry maps the identifier to a room whose roster is the participant
with "X", whose turn is the participant, whose board is the empty 3x3 board
and whose game is in progress; every room stored under another identifier is
still there, unchanged. -/
theorem CreateRoom_effect (s : TicTacToeServer) (req : CreateRoomRequest)
    (roomID : String) :
    (CreateRoom s req roomID).2 = Reply.ok roomID ∧
    (∃ room, (CreateRoom s req roomID).1.Rooms.lookup roomID = some room ∧
      room.Players.keys = [req.PlayerName] ∧
      room.Players.lookup req.PlayerName = some "X" ∧
      room.CurrentTurn = req.PlayerName ∧
      room.Board = [["", "", ""], ["", "", ""], ["", "", ""]] ∧
      room.IsGameOver = false ∧ room.Winner = "") ∧
    (∀ roomId, roomId ≠ roomID →
      (CreateRoom s req roomID).1.Rooms.lookup roomId = s.Rooms.lookup roomId) := by
  refine ⟨rfl, ⟨_, AList.lookup_insert _, ?_, AList.lookup_insert _, rfl, rfl, rfl, rfl⟩, ?_⟩
  · simp [AList.keys_insert]
  · intro roomId hne
    exact AList.lookup_insert_ne hne

/-- C16: a cell, once non-empty, keeps its value.  When a cell of a room is not
empty, then after `JoinRoom` and after a run of the data path of `PlaceMove`,
with success or with an error, the cell holds the same value. -/
theorem cell_never_reverts (s : TicTacToeServer) (roomId : String) (room : Room)
    (i j : Nat) (c : String)
    (hroom : s.Rooms.lookup roomId = some room)
    (hcell : readCell room.Board i j = some c) (hc : c ≠ "") :
    (∀ jreq,
      ∃ room', (JoinRoom s jreq).1.Rooms.lookup roomId = some room' ∧
        readCell room'.Board i j = some c) ∧
    (∀ req order s' reply, PlaceMoveBody s req order = some (s', reply) →
      ∃ room', s'.Rooms.lookup roomId = some room' ∧
        readCell room'.Board i j = some c) := by
  constructor
  · intro jreq
    unfold JoinRoom
    split
    · exact ⟨room, hroom, hcell⟩
    · rename_i room0 hroom0
      split
      · exact ⟨room, hroom, hcell⟩
      · simp only [lookup_insert_cases]
        split
        · rename_i heq
          subst heq
          rw [hroom] at hroom0
          obtain rfl := Option.some.inj hroom0
          exact ⟨_, rfl, hcell⟩
        · exact ⟨room, hroom, hcell⟩
  · intro req order s' reply hcall
    rcases PlaceMoveBody_inv_board hcall with rfl |
      ⟨room0, room', board, hroom0, -, hempty, hw, hboard, -, rfl⟩
    · exact ⟨room, hroom, hcell⟩
    · simp only [lookup_insert_cases]
      split
      · rename_i heq
        subst heq
        rw [hroom] at hroom0
        obtain rfl := Option.some.inj hroom0
        refine ⟨room', rfl, ?_⟩
        rw [hboard, readCell_writeCell hw, if_neg]
        · exact hcell
        · rintro ⟨rfl, rfl⟩
          rw [hempty] at hcell
          exact hc (Option.some.inj hcell).symm
      · exact ⟨room, hroom, hcell⟩

/-- C16 in the room of Alice and Bob after Alice has played the centre: the centre
holds "X" after Carol's refused `JoinRoom` and after Bob's accepted move at
(0,0). -/
theorem cell_never_reverts_witness :
    (∃ room', (JoinRoom aliceFirst ⟨"r", "Carol"⟩).1.Rooms.lookup "r" = some room' ∧
      readCell room'.Board 1 1 = some "X") ∧
    (∃ room', (⟨aliceFirst.Rooms.insert "r"
        { aliceFirstRoom with
          Board := [["O", "", ""], ["", "X", ""], ["", "", ""]]
          CurrentTurn := "Alice" }⟩ : TicTacToeServer).Rooms.lookup "r" = some room' ∧
      readCell room'.Board 1 1 = some "X") :=
  ⟨(cell_never_reverts aliceFirst "r" aliceFirstRoom 1 1 "X" rfl rfl (by decide)).1
      ⟨"r", "Carol"⟩,
    (cell_never_reverts aliceFirst "r" aliceFirstRoom 1 1 "X" rfl rfl (by decide)).2
      ⟨"r", "Bob", 0, 0⟩ ["Bob", "Alice"] _
      (Reply.ok ⟨[["O", "", ""], ["", "X", ""], ["", "", ""]], false, ""⟩) rfl⟩

/-- C17 fails on the code: in the room created by Alice, the mutex calls of her
`PlaceMove` at (0,0), run from the state in which no mutex is locked, end in
the fatal error of unlocking `s.Mutex` while it is not locked, with the mutex
of the room still locked; `s.Mutex` is unlocked twice for one `Lock` and the
mutex of the room never for one `Lock`.  The path of `PlaceMove` for a missing
room and the handler `JoinRoom` return with no mutex locked. -/
theorem C17_PlaceMove_double_unlock :
    aliceAlone.Rooms.lookup "r" = some aliceAloneRoom ∧
    PlaceMoveLocks aliceAlone ⟨"r", "Alice", 0, 0⟩ =
      [LockOp.lock MutexId.server, LockOp.lock (MutexId.room "r"),
       LockOp.unlock MutexId.server, LockOp.unlock MutexId.server] ∧
    Locks.exec Locks.free (PlaceMoveLocks aliceAlone ⟨"r", "Alice", 0, 0⟩) =
      LockResult.fault (LockFault.unlockOfUnlocked MutexId.server) ⟨[MutexId.room "r"]⟩ ∧
    (PlaceMoveLocks aliceAlone ⟨"r", "Alice", 0, 0⟩).count
      (LockOp.unlock MutexId.server) = 2 ∧
    (PlaceMoveLocks aliceAlone ⟨"r", "Alice", 0, 0⟩).count
      (LockOp.unlock (MutexId.room "r")) = 0 ∧
    Locks.exec Locks.free (PlaceMoveLocks aliceAlone ⟨"q", "Alice", 0, 0⟩) =
      LockResult.returned Locks.free ∧
    Locks.exec Locks.free JoinRoomLocks = LockResult.returned Locks.free := by
  refine ⟨rfl, rfl, ?_, ?_, ?_, ?_, ?_⟩ <;> decide

/-- C18 fails on the code.  Two calls of `PlaceMove` target the empty cell (1,1) of
the room of Alice and Bob.  In the schedule that runs Alice's call to its end
and then Bob's, the mutex calls of the two end in the fatal error of the
second deferred `s.Mutex.Unlock()` of Alice's call, with the mutex of the
room locked.  In the schedule in which Bob's call has locked `s.Mutex`
between the two deferred calls of Alice's, Alice's call returns its success
reply with the mutex of the room locked, and Bob's call waits for ever at
`room.Mutex.Lock()`.  In neither does the second caller get "cell already
occupied". -/
theorem C18_second_caller_never_answers :
    cellAt aliceBobRoom.Board 1 1 = some "" ∧
    Locks.exec Locks.free
        (PlaceMoveLocks aliceBob ⟨"r", "Alice", 1, 1⟩ ++
          PlaceMoveLocks aliceBob ⟨"r", "Bob", 1, 1⟩) =
      LockResult.fault (LockFault.unlockOfUnlocked MutexId.server) ⟨[MutexId.room "r"]⟩ ∧
    PlaceMove Locks.free aliceBob ⟨"r", "Alice", 1, 1⟩ ["Alice", "Bob"] false =
      Outcome.fault (LockFault.unlockOfUnlocked MutexId.server) ⟨[MutexId.room "r"]⟩
        aliceFirst ∧
    PlaceMove Locks.free aliceBob ⟨"r", "Alice", 1, 1⟩ ["Alice", "Bob"] true =
      Outcome.returned ⟨[MutexId.room "r"]⟩ aliceFirst
        (Reply.ok ⟨aliceFirstRoom.Board, false, ""⟩) ∧
    PlaceMove ⟨[MutexId.room "r"]⟩ aliceFirst ⟨"r", "Bob", 1, 1⟩ ["Alice", "Bob"] false =
      Outcome.fault (LockFault.blocked (MutexId.room "r"))
        ⟨[MutexId.server, MutexId.room "r"]⟩ aliceFirst ∧
    PlaceMove ⟨[MutexId.room "r"]⟩ aliceFirst ⟨"r", "Bob", 1, 1⟩ ["Alice", "Bob"] true =
      Outcome.fault (LockFault.blocked (MutexId.room "r"))
        ⟨[MutexId.server, MutexId.room "r"]⟩ aliceFirst :=
  ⟨rfl, by decide, rfl, rfl, rfl, rfl⟩

/-- C19: in every reachable server every room has a board of three rows of three
cells; every cell with row and column below 3 can be read and written, a call
of `PlaceMove` with row and column in [0,3) meets no index out of range, and `checkWin` and
`checkDraw` return on the board. -/
theorem board_in_bounds (s : TicTacToeServer) (roomId : String) (room : Room)
    (hreach : Reachable s) (hroom : s.Rooms.lookup roomId = some room) :
    IsGrid room.Board ∧
    (∀ i j, i < 3 → j < 3 →
      (∃ c, readCell room.Board i j = some c) ∧
      ∀ v, ∃ board, writeCell room.Board i j v = some board ∧ IsGrid board) ∧
    (∀ name row col order, 0 ≤ row → row < 3 → 0 ≤ col → col < 3 →
      ∃ s' reply, PlaceMoveBody s ⟨roomId, name, row, col⟩ order = some (s', reply)) ∧
    (∀ symbol, ∃ r, checkWin room.Board symbol = some r) ∧
    (∃ r, checkDraw room.Board = some r) := by
  have hg : IsGrid room.Board := (serverInv_of_reachable hreach roomId room hroom).grid
  refine ⟨hg, ?_, ?_, ?_, ?_⟩
  · intro i j hi hj
    refine ⟨readCell_of_grid hg hi hj, fun v => ?_⟩
    obtain ⟨board, hw⟩ := writeCell_of_grid hg hi hj v
    exact ⟨board, hw, isGrid_writeCell hg hw⟩
  · intro name row col order hr0 hr3 hc0 hc3
    exact PlaceMoveBody_returns order hroom hg hr0 hr3 hc0 hc3
  · intro symbol
    exact ⟨_, checkWin_of_grid hg symbol⟩
  · exact ⟨_, checkDraw_of_grid hg⟩

/-- C19 at the room that Alice has won. -/
theorem board_in_bounds_witness :
    IsGrid aliceWonRoom.Board ∧
    (∀ i j, i < 3 → j < 3 →
      (∃ c, readCell aliceWonRoom.Board i j = some c) ∧
      ∀ v, ∃ board, writeCell aliceWonRoom.Board i j v = some board ∧ IsGrid board) ∧
    (∀ name row col order, 0 ≤ row → row < 3 → 0 ≤ col → col < 3 →
      ∃ s' reply, PlaceMoveBody aliceWon ⟨"r", name, row, col⟩ order = some (s', reply)) ∧
    (∀ symbol, ∃ r, checkWin aliceWonRoom.Board symbol = some r) ∧
    (∃ r, checkDraw aliceWonRoom.Board = some r) :=
  board_in_bounds aliceWon "r" aliceWonRoom ⟨aliceWonCalls, rfl⟩ rfl

/-- C20 fails on the code.  In the room created by Alice, the data path of Zed's
move at (1,1) does what the claim says: Zed is not in the roster, the mark is
the empty string, the board is left as it was and, a line being empty, the
game is over with Zed as winner, and a success reply is built.  But the call,
run alone, does not succeed: it dies in the second deferred
`s.Mutex.Unlock()` and no reply is returned. -/
theorem C20_non_member_move_no_reply :
    aliceAlone.Rooms.lookup "r" = some aliceAloneRoom ∧
    aliceAloneRoom.Players.lookup "Zed" = none ∧
    mapGet aliceAloneRoom.Players "Zed" = "" ∧
    PlaceMoveBody aliceAlone ⟨"r", "Zed", 1, 1⟩ ["Alice"] =
      some (zedWon, Reply.ok ⟨createEmptyBoard, true, "Zed"⟩) ∧
    zedWon.Rooms.lookup "r" = some zedWonRoom ∧
    zedWonRoom.Board = aliceAloneRoom.Board ∧
    zedWonRoom.IsGameOver = true ∧ zedWonRoom.Winner = "Zed" ∧
    PlaceMove Locks.free aliceAlone ⟨"r", "Zed", 1, 1⟩ ["Alice"] false =
      Outcome.fault (LockFault.unlockOfUnlocked MutexId.server) ⟨[MutexId.room "r"]⟩
        zedWon :=
  ⟨rfl, rfl, rfl, rfl, rfl, rfl, rfl, rfl, rfl⟩

end TicTacToe
